import Mathlib

/-!
Shallow embedding of the settlement-calculation program `src/teste.py`
(company registry persisted as JSON, business-day counting, Policy-B
settlement arithmetic, Brazilian currency formatting, HTML report
rendering), together with theorems settling the specification claims.

Conventions: Python `int` is modelled as `ℤ`, Python `float` as `ℚ`
(exact rational arithmetic), Python `str` as `String`, Python `date`
as its proleptic-Gregorian ordinal (an integer; `date.weekday()` of the
date with ordinal `n` is `(n - 1) % 7`, Monday = 0), and `dict` rows as
structures.  File I/O is modelled by an explicit store state.
-/

namespace Teste

/-! ## Business-day counting (`contar_dias_uteis`, src/teste.py lines 43-60) -/

/-- Weekday of the calendar date with proleptic-Gregorian ordinal `d`
(`date.weekday()` in Python): Monday = 0, ..., Sunday = 6.
Ordinal 1 (0001-01-01) is a Monday. -/
def weekday (d : ℤ) : ℤ := (d - 1) % 7

/-- Direct translation of `contar_dias_uteis`: walks day by day from
`data_inicio` to `data_fim` (inclusive), counting days whose weekday is
Monday..Friday (`weekday < 5`); returns 0 when `data_inicio > data_fim`.
The source's `while` accumulation loop becomes tail recursion on the range. -/
def contar_dias_uteis (data_inicio data_fim : ℤ) : ℤ :=
  if data_inicio > data_fim then 0
  else (if weekday data_inicio < 5 then 1 else 0) + contar_dias_uteis (data_inicio + 1) data_fim
termination_by (data_fim + 1 - data_inicio).toNat
decreasing_by omega

/-- Specification-side predicate: the date with ordinal `d` falls on
Monday through Friday. -/
def ehDiaUtil (d : ℤ) : Prop := weekday d < 5

instance (d : ℤ) : Decidable (ehDiaUtil d) := by
  unfold ehDiaUtil; infer_instance

/-- Specification-side count: the number of dates in the inclusive range
`[a, b]` that fall on Monday through Friday. -/
def diasUteisSpec (a b : ℤ) : ℕ :=
  ((Finset.Icc a b).filter (fun d => weekday d < 5)).card

/-! ## Settlement calculation (`calcular_desconto_total`, src/teste.py lines 62-99) -/

/-- Row shape appended by the UI for an entitlement period
(src/teste.py lines 432-438): `{mes, dias, valor, data_inicio, data_fim}`. -/
structure PeriodoDireito where
  mes : String
  dias : ℤ
  valor : ℚ
  data_inicio : Option String
  data_fim : Option String
deriving Repr, DecidableEq

/-- Row shape appended by the UI for an absence period
(src/teste.py lines 487-492): `{descricao, dias, data_inicio, data_fim}`. -/
structure PeriodoAfastamento where
  descricao : String
  dias : ℤ
  data_inicio : Option String
  data_fim : Option String
deriving Repr, DecidableEq

/-- Totals record returned by `calcular_desconto_total`
(src/teste.py lines 91-99). -/
structure Totais where
  total_dias_direito : ℤ
  total_valor_direito : ℚ
  total_dias_ausentes : ℤ
  dias_trabalhados : ℤ
  dias_a_descontar : ℤ
  valor_a_descontar : ℚ
  valor_final : ℚ
deriving Repr, DecidableEq

/-- Direct translation of `calcular_desconto_total` (src/teste.py lines 62-99):
sums of entitlement days/values and absence days, days worked, the shortfall
against `dias_base` (clamped at 0 twice, as in the source: once via the
`if`, once via `max(0, ...)`), the monetary deduction and the final value. -/
def calcular_desconto_total (periodos_direito : List PeriodoDireito)
    (periodos_afastamento : List PeriodoAfastamento)
    (dias_base : ℤ) (valor_diario : ℚ) : Totais :=
  let total_dias_direito := (periodos_direito.map (fun p => p.dias)).sum
  let total_valor_direito := (periodos_direito.map (fun p => p.valor)).sum
  let total_dias_ausentes := (periodos_afastamento.map (fun p => p.dias)).sum
  let dias_trabalhados := total_dias_direito - total_dias_ausentes
  let descRaw := if dias_trabalhados ≥ dias_base then 0 else dias_base - dias_trabalhados
  let dias_a_descontar := max 0 descRaw
  let valor_a_descontar := (dias_a_descontar : ℚ) * valor_diario
  let valor_final := total_valor_direito - valor_a_descontar
  { total_dias_direito := total_dias_direito
    total_valor_direito := total_valor_direito
    total_dias_ausentes := total_dias_ausentes
    dias_trabalhados := dias_trabalhados
    dias_a_descontar := dias_a_descontar
    valor_a_descontar := valor_a_descontar
    valor_final := valor_final }

/-! ## Currency formatting (`formatar_real`, src/teste.py lines 101-103) -/

/-- Decimal digit character for a digit value 0..9. -/
def digitChar : ℕ → Char
  | 0 => '0'
  | 1 => '1'
  | 2 => '2'
  | 3 => '3'
  | 4 => '4'
  | 5 => '5'
  | 6 => '6'
  | 7 => '7'
  | 8 => '8'
  | _ => '9'

/-- Decimal digit values of `n`, most significant first; structural
recursion on a fuel bound (`fuel ≥ n` suffices). -/
def digitsOfNatAux : ℕ → ℕ → List ℕ
  | 0, n => [n]
  | fuel + 1, n => if n < 10 then [n] else digitsOfNatAux fuel (n / 10) ++ [n % 10]

/-- Decimal digit values of `n`, most significant first. -/
def digitsOfNat (n : ℕ) : List ℕ := digitsOfNatAux n n

/-- Decimal digit characters of `n`, most significant first. -/
def natChars (n : ℕ) : List Char := (digitsOfNat n).map digitChar

/-- Left-pad a digit-character list with zeros to width `k`. -/
def padLeftZeros (k : ℕ) (ds : List Char) : List Char :=
  List.replicate (k - ds.length) '0' ++ ds

/-- Decimal digit characters of an integer, with a leading minus sign when
negative (Python `str` on `int`). -/
def intChars (z : ℤ) : List Char :=
  if z < 0 then '-' :: natChars z.natAbs else natChars z.natAbs

/-- Python `str(int)` as a Lean `String`. -/
def intStr (z : ℤ) : String := ⟨intChars z⟩

/-- Digits of `n` grouped in threes from the right with `,` separators
(the grouping of Python's `{:,}` format); fuel-bounded structural
recursion (`fuel ≥ n` suffices). -/
def group3Aux : ℕ → ℕ → List Char
  | 0, n => natChars n
  | fuel + 1, n =>
    if n < 1000 then natChars n
    else group3Aux fuel (n / 1000) ++ ',' :: padLeftZeros 3 (natChars (n % 1000))

/-- Digits of `n` grouped in threes from the right with `,` separators. -/
def group3 (n : ℕ) : List Char := group3Aux n n

/-- Floor of a rational as an integer (`Int` division `num / den` floors,
since the denominator is positive). -/
def ratFloor (q : ℚ) : ℤ := q.num / q.den

/-- Round a rational to the nearest integer, ties to even (the rounding
applied by Python's fixed-point formatting of an exactly representable
value). -/
def roundHalfEven (q : ℚ) : ℤ :=
  let f := ratFloor q
  let r := q - (f : ℚ)
  if r < 1/2 then f
  else if (1 : ℚ)/2 < r then f + 1
  else if f % 2 = 0 then f else f + 1

/-- Rendering of a cent count as Python's `{:,.2f}` output: optional sign,
thousands-grouped integer part, decimal point, two cent digits. -/
def format_us_cents (cents : ℤ) : List Char :=
  let sinal : List Char := if cents < 0 then ['-'] else []
  let n := cents.natAbs
  sinal ++ group3 (n / 100) ++ '.' :: padLeftZeros 2 (natChars (n % 100))

/-- Python's `f"{valor:,.2f}"`: the value rounded to cents, rendered with
sign, thousands grouping and two decimals. -/
def format_us (valor : ℚ) : List Char :=
  format_us_cents (roundHalfEven (valor * 100))

/-- Python's `str.replace` for a single-character pattern, as a character
map (the three patterns in `formatar_real` are all single characters). -/
def replaceChar (a b : Char) (s : List Char) : List Char :=
  s.map (fun c => if c = a then b else c)

/-- Direct translation of `formatar_real` (src/teste.py lines 101-103):
`f"R$ {valor:,.2f}"` then `.replace(",", "X")`, `.replace(".", ",")`,
`.replace("X", ".")` in sequence over the whole string. -/
def formatar_real (valor : ℚ) : String :=
  ⟨replaceChar 'X' '.' (replaceChar '.' ',' (replaceChar ',' 'X'
    ('R' :: '$' :: ' ' :: format_us valor)))⟩

/-! ## Company registry persistence (src/teste.py lines 12-37)

The registry file `empresas_cadastradas.json` maps a company name to
`\x7b"valor_diario": float, "dias_base": int\x7d`.  The `json` module and
the file system are standard-library collaborators, not repository code;
they are modelled below (`dumpEmpresas`, `json_load`, `Store`) from the
spec's description of the store: a JSON document with non-ASCII
characters preserved (`ensure_ascii=False`) and two-space indentation
(`indent=2`). -/

/-- Company row persisted per name (src/teste.py lines 345-348). -/
structure Empresa where
  valor_diario : ℚ
  dias_base : ℤ
deriving Repr, DecidableEq

/-- The persisted mapping: Python's insertion-ordered `dict` modelled as an
association list in insertion order. -/
abbrev Empresas := List (String × Empresa)

/-- Hexadecimal digit character (lowercase) for a value 0..15. -/
def hexChar : ℕ → Char
  | 0 => '0'
  | 1 => '1'
  | 2 => '2'
  | 3 => '3'
  | 4 => '4'
  | 5 => '5'
  | 6 => '6'
  | 7 => '7'
  | 8 => '8'
  | 9 => '9'
  | 10 => 'a'
  | 11 => 'b'
  | 12 => 'c'
  | 13 => 'd'
  | 14 => 'e'
  | _ => 'f'

/-- Modelled from the spec: `json.dump`'s escaping of one character inside
a string literal under `ensure_ascii=False`: quote and backslash get a
backslash escape, the control characters 8/9/10/12/13 get their shorthand
escape, other control characters get `\u00XX`, and every remaining
character — non-ASCII included — is written as itself. -/
def escapeChar (c : Char) : List Char :=
  if c = '"' then ['\\', '"']
  else if c = '\\' then ['\\', '\\']
  else if 32 ≤ c.toNat then [c]
  else if c.toNat = 8 then ['\\', 'b']
  else if c.toNat = 9 then ['\\', 't']
  else if c.toNat = 10 then ['\\', 'n']
  else if c.toNat = 12 then ['\\', 'f']
  else if c.toNat = 13 then ['\\', 'r']
  else ['\\', 'u', '0', '0', hexChar (c.toNat / 16), hexChar (c.toNat % 16)]

/-- JSON escaping of a whole string body. -/
def escapeStr : List Char → List Char
  | [] => []
  | c :: cs => escapeChar c ++ escapeStr cs

/-- Smallest number of decimal digits that writes `q` exactly, when one
exists (`q.den` always bounds the search, see `dvd_pow_ten_den`). -/
def decExp (q : ℚ) : Option ℕ :=
  (List.range (q.den + 1)).find? (fun k => (q * (10 : ℚ) ^ k).den == 1)

/-- Modelled from the spec: the decimal text `json.dump` writes for a
float value (Python float `repr` prints the shortest exact decimal, always
with at least one fractional digit).  Exact for every decimal-representable
rational; other denominators do not occur in the store. -/
def ratChars (q : ℚ) : List Char :=
  let k := (decExp q).getD 0
  let units : ℤ := (q * (10 : ℚ) ^ k).num
  let sinal : List Char := if units < 0 then ['-'] else []
  let n := units.natAbs
  if k = 0 then sinal ++ (natChars n ++ ['.', '0'])
  else sinal ++ (natChars (n / 10 ^ k) ++ '.' :: padLeftZeros k (natChars (n % 10 ^ k)))

/-- Serialized form of one company row, as `json.dump` with `indent=2`
renders an object nested one level deep. -/
def dumpEmpresa (e : Empresa) : List Char :=
  "\x7b\n    \"valor_diario\": ".data ++ ratChars e.valor_diario ++
    ",\n    \"dias_base\": ".data ++ intChars e.dias_base ++ "\n  \x7d".data

/-- Serialized member for one (name, row) pair: quoted escaped key,
`": "`, then the row object. -/
def dumpMembro (kv : String × Empresa) : List Char :=
  '"' :: (escapeStr kv.1.data ++ '"' :: ':' :: ' ' :: dumpEmpresa kv.2)

/-- Serialized member list, each on its own line at indent 2, separated by
commas. -/
def dumpMembros : Empresas → List Char
  | [] => []
  | [kv] => ' ' :: ' ' :: dumpMembro kv
  | kv :: rest => ' ' :: ' ' :: (dumpMembro kv ++ ',' :: '\n' :: dumpMembros rest)

/-- Modelled from the spec: the full document
`json.dump(empresas, f, ensure_ascii=False, indent=2)` writes
(src/teste.py line 33). -/
def dumpEmpresas (m : Empresas) : String :=
  if m.isEmpty then "\x7b\x7d" else ⟨'\x7b' :: '\n' :: (dumpMembros m ++ '\n' :: ['\x7d'])⟩

/-- Hexadecimal digit value of a character, if it is one. -/
def hexVal? (c : Char) : Option ℕ :=
  if '0' ≤ c ∧ c ≤ '9' then some (c.toNat - 48)
  else if 'a' ≤ c ∧ c ≤ 'f' then some (c.toNat - 87)
  else if 'A' ≤ c ∧ c ≤ 'F' then some (c.toNat - 55)
  else none

/-- Decimal digit recognizer. -/
def isDigitChar (c : Char) : Bool := '0' ≤ c && c ≤ '9'

/-- Decimal digit value of a digit character. -/
def digitVal (c : Char) : ℕ := c.toNat - 48

/-- Splits a maximal run of decimal digit characters off the front. -/
def splitDigits : List Char → List Char × List Char
  | [] => ([], [])
  | c :: cs =>
    if isDigitChar c then
      let p := splitDigits cs
      (c :: p.1, p.2)
    else ([], c :: cs)

/-- Numeric value of a run of digit characters. -/
def numFromDigits (ds : List Char) : ℕ :=
  ds.foldl (fun a c => a * 10 + digitVal c) 0

/-- JSON insignificant whitespace. -/
def isWs (c : Char) : Bool := c == ' ' || c == '\n' || c == '\t' || c == '\r'

/-- Drops leading JSON whitespace. -/
def skipWs : List Char → List Char
  | [] => []
  | c :: cs => if isWs c then skipWs cs else c :: cs

/-- Consumes one expected character. -/
def expectChar (c : Char) : List Char → Option (List Char)
  | [] => none
  | x :: xs => if x = c then some xs else none

/-- Modelled from the spec: `json.load`'s string-literal parsing, after the
opening quote: plain characters up to the closing quote, with backslash
escapes (`\" \\ \/ \b \f \n \r \t \uXXXX`) decoded. -/
def parseJStr : List Char → Option (List Char × List Char)
  | [] => none
  | c :: cs =>
    if c = '"' then some ([], cs)
    else if c = '\\' then
      match cs with
      | [] => none
      | e :: cs2 =>
        if e = '"' then do
          let p ← parseJStr cs2
          some ('"' :: p.1, p.2)
        else if e = '\\' then do
          let p ← parseJStr cs2
          some ('\\' :: p.1, p.2)
        else if e = '/' then do
          let p ← parseJStr cs2
          some ('/' :: p.1, p.2)
        else if e = 'b' then do
          let p ← parseJStr cs2
          some ('\x08' :: p.1, p.2)
        else if e = 'f' then do
          let p ← parseJStr cs2
          some ('\x0c' :: p.1, p.2)
        else if e = 'n' then do
          let p ← parseJStr cs2
          some ('\n' :: p.1, p.2)
        else if e = 'r' then do
          let p ← parseJStr cs2
          some ('\x0d' :: p.1, p.2)
        else if e = 't' then do
          let p ← parseJStr cs2
          some ('\t' :: p.1, p.2)
        else if e = 'u' then
          match cs2 with
          | h1 :: h2 :: h3 :: h4 :: cs3 => do
            let d1 ← hexVal? h1
            let d2 ← hexVal? h2
            let d3 ← hexVal? h3
            let d4 ← hexVal? h4
            let p ← parseJStr cs3
            some (Char.ofNat (((d1 * 16 + d2) * 16 + d3) * 16 + d4) :: p.1, p.2)
          | _ => none
        else none
    else do
      let p ← parseJStr cs
      some (c :: p.1, p.2)

/-- Unsigned fixed-point number: an integer digit run with an optional
fractional digit run. -/
def parseNumCore (s : List Char) : Option (ℚ × List Char) :=
  let p := splitDigits s
  if p.1 = [] then none
  else
    let ip : ℚ := (numFromDigits p.1 : ℕ)
    match p.2 with
    | c :: r2 =>
      if c = '.' then
        let pf := splitDigits r2
        if pf.1 = [] then none
        else some (ip + (numFromDigits pf.1 : ℕ) / (10 : ℚ) ^ pf.1.length, pf.2)
      else some (ip, c :: r2)
    | [] => some (ip, [])

/-- Modelled from the spec: `json.load`'s number parsing, restricted to the
optional-sign fixed-point forms the registry writes (no exponent parts,
which never occur in the store). -/
def parseNum (s : List Char) : Option (ℚ × List Char) :=
  match s with
  | '-' :: r => (parseNumCore r).map (fun p => (-p.1, p.2))
  | _ => parseNumCore s

/-- Modelled from the spec: `json.load` on one `"key": ` field prelude —
quoted key (which must match the expected one), colon, then whitespace
before the value. -/
def parseFieldKey (key : List Char) (s : List Char) : Option (List Char) :=
  Option.bind (expectChar '"' (skipWs s)) fun s =>
  Option.bind (parseJStr s) fun p =>
  if p.1 = key then
    Option.bind (expectChar ':' (skipWs p.2)) fun s =>
    some (skipWs s)
  else none

/-- Modelled from the spec: `json.load` on one company-row object, with the
two fields in the order the registry writes and an integral `dias_base`. -/
def parseEmpresa (s : List Char) : Option (Empresa × List Char) :=
  Option.bind (expectChar '\x7b' (skipWs s)) fun s =>
  Option.bind (parseFieldKey "valor_diario".data s) fun s =>
  Option.bind (parseNum s) fun pv =>
  Option.bind (expectChar ',' (skipWs pv.2)) fun s =>
  Option.bind (parseFieldKey "dias_base".data s) fun s =>
  Option.bind (parseNum s) fun pd =>
  if pd.1.den = 1 then
    Option.bind (expectChar '\x7d' (skipWs pd.2)) fun s =>
    some (⟨pv.1, pd.1.num⟩, s)
  else none

/-- Modelled from the spec: `json.load` on a nonempty member sequence,
consuming the closing brace; fuel-bounded structural recursion (each
member consumes at least one character, so the input length suffices). -/
def parseMembros : ℕ → List Char → Option (Empresas × List Char)
  | 0, _ => none
  | fuel + 1, s =>
    Option.bind (expectChar '"' (skipWs s)) fun s =>
    Option.bind (parseJStr s) fun pk =>
    Option.bind (expectChar ':' (skipWs pk.2)) fun s =>
    Option.bind (parseEmpresa (skipWs s)) fun pe =>
    match skipWs pe.2 with
    | ',' :: r =>
      Option.bind (parseMembros fuel r) fun pr =>
      some ((⟨pk.1⟩, pe.1) :: pr.1, pr.2)
    | '\x7d' :: r => some ([(⟨pk.1⟩, pe.1)], r)
    | _ => none

/-- Modelled from the spec: `json.load` over the whole registry document —
an object of company rows with nothing but whitespace after it; any
malformed document is a parse failure (`None`), matching the exception
`json.load` raises. -/
def json_load (s : String) : Option Empresas :=
  match expectChar '\x7b' (skipWs s.data) with
  | none => none
  | some s1 =>
    match skipWs s1 with
    | '\x7d' :: r => if (skipWs r).isEmpty then some [] else none
    | s2 =>
      Option.bind (parseMembros (s.data.length + 1) s2) fun pm =>
      if (skipWs pm.2).isEmpty then some pm.1 else none

/-- State of the backing store file `empresas_cadastradas.json`
(`ARQUIVO_EMPRESAS`, src/teste.py line 12): absent, present but unreadable
(`open`/read raises), or readable with the given text content. -/
inductive Store where
  | ausente : Store
  | ilegivel : Store
  | conteudo : String → Store
deriving Repr, DecidableEq

/-- Result of `carregar_empresas`: the returned mapping plus whether the
error path (`st.error`) was signalled. -/
structure CarregarResult where
  empresas : Empresas
  erro : Bool
deriving Repr, DecidableEq

/-- Direct translation of `carregar_empresas` (src/teste.py lines 18-27)
over the explicit store state: missing file -> `\x7b\x7d` with no error;
unreadable file or `json.load` failure -> the `except` branch shows the
error and returns `\x7b\x7d`; a parseable file returns its mapping. -/
def carregar_empresas : Store → CarregarResult
  | Store.ausente => ⟨[], false⟩
  | Store.ilegivel => ⟨[], true⟩
  | Store.conteudo s =>
    match json_load s with
    | some m => ⟨m, false⟩
    | none => ⟨[], true⟩

/-- Direct translation of `salvar_empresas` (src/teste.py lines 29-37) over
the explicit store state, with `io_ok` modelling whether the write raises:
on success the file holds the dumped document and `True` is returned; on
failure the error is shown, the store is unchanged and `False` is returned. -/
def salvar_empresas (empresas : Empresas) (io_ok : Bool) (store : Store) :
    Store × Bool :=
  if io_ok then (Store.conteudo (dumpEmpresas empresas), true)
  else (store, false)

/-! ## HTML report rendering (`gerar_html_relatorio`, src/teste.py lines 109-307) -/

/-- Full calculation record assembled by the UI (src/teste.py lines
535-545): employee and company names, company parameters, the period
lists, the computed totals, the free-text note and the refund date (always
present for records the UI builds; `none` falls back to today's date,
passed in as `hoje`). -/
structure Calc where
  nome_funcionario : String
  empresa : String
  valor_diario : ℚ
  dias_base : ℤ
  periodos_direito : List PeriodoDireito
  periodos_afastamento : List PeriodoAfastamento
  totais : Totais
  observacao : String
  data_reembolso : Option String
deriving Repr

/-- Description of one absence row (src/teste.py lines 227-229): the date
range is appended when both dates are present (Python truthiness of the
two optional fields). -/
def descricaoAfastamento (p : PeriodoAfastamento) : String :=
  match p.data_inicio, p.data_fim with
  | some di, some df => p.descricao ++ " (" ++ di ++ " a " ++ df ++ ")"
  | _, _ => p.descricao

/-- Document head with the inline stylesheet (src/teste.py lines 112-201). -/
def cabecalhoHtml : String :=
  "\n    <!DOCTYPE html>\n    <html lang=\"pt-BR\">\n    <head>\n        <meta charset=\"UTF-8\">\n        <meta name=\"viewport\" content=\"width=device-width, initial-scale=1.0\">\n        <title>Relatório de Descontos</title>\n        <style>\n            body \x7b\n                font-family: 'Segoe UI', Tahoma, Geneva, Verdana, sans-serif;\n                max-width: 900px;\n                margin: 40px auto;\n                padding: 20px;\n                background: #f5f5f5;\n            \x7d\n            .relatorio \x7b\n                background: white;\n                padding: 30px;\n                margin-bottom: 30px;\n                box-shadow: 0 2px 8px rgba(0,0,0,0.1);\n            \x7d\n            .cabecalho \x7b\n                background: #2c3e50;\n                color: white;\n                padding: 15px;\n                margin: -30px -30px 20px -30px;\n                text-align: center;\n            \x7d\n            .secao-titulo \x7b\n                background: #34495e;\n                color: white;\n                padding: 10px 15px;\n                margin: 20px 0 15px 0;\n                font-weight: bold;\n            \x7d\n            table \x7b\n                width: 100%;\n                border-collapse: collapse;\n                margin-bottom: 15px;\n            \x7d\n            td, th \x7b\n                padding: 8px;\n                border-bottom: 1px solid #ecf0f1;\n                text-align: left;\n            \x7d\n            .valor \x7b\n                text-align: right;\n                font-weight: bold;\n            \x7d\n            .total \x7b\n                background: #e74c3c;\n                color: white;\n                padding: 12px 15px;\n                text-align: right;\n                font-weight: bold;\n                font-size: 1.1em;\n                margin: 15px 0;\n            \x7d\n            .total-direito \x7b\n                background: #27ae60;\n                color: white;\n                padding: 12px 15px;\n                text-align: right;\n                font-weight: bold;\n                font-size: 1.1em;\n                margin: 15px 0;\n            \x7d\n            .observacao \x7b\n                background: #ecf0f1;\n                padding: 15px;\n                margin: 15px 0;\n                font-style: italic;\n                color: #555;\n            \x7d\n            .info-reembolso \x7b\n                background: #3498db;\n                color: white;\n                padding: 12px 15px;\n                margin: 15px 0;\n            \x7d\n            .resumo-item \x7b\n                padding: 10px;\n                background: #f8f9fa;\n                margin-bottom: 8px;\n                border-left: 4px solid #3498db;\n            \x7d\n        </style>\n    </head>\n    <body>\n    "

/-- Per-record header block (src/teste.py lines 204-210).  `String.toUpper`
uppercases ASCII letters only, unlike Python's Unicode-aware `str.upper`;
markup-significant characters are untouched by both, so this difference
does not affect document structure. -/
def cabecalhoCalc (c : Calc) : String :=
  "\n        <div class=\"relatorio\">\n            <div class=\"cabecalho\">\n                <h2>" ++
    c.nome_funcionario.toUpper ++
    "</h2>\n                <p style=\"margin: 5px 0 0 0;\">Empresa: " ++
    c.empresa ++
    "</p>\n            </div>\n        "

/-- Static opening of the absence table (src/teste.py lines 213-224). -/
def secaoAfastamentos : String :=
  "\n            <div class=\"secao-titulo\">PERÍODOS DE AFASTAMENTO</div>\n            <table>\n                <thead>\n                    <tr>\n                        <th>Descrição/Período</th>\n                        <th style=\"text-align: center;\">Dias</th>\n                        <th style=\"text-align: right;\">Valor Diário</th>\n                    </tr>\n                </thead>\n                <tbody>\n        "

/-- One absence table row (src/teste.py lines 231-237). -/
def linhaAfastamento (c : Calc) (p : PeriodoAfastamento) : String :=
  "\n                <tr>\n                    <td>" ++
    (descricaoAfastamento p) ++
    "</td>\n                    <td style=\"text-align: center;\">" ++
    (intStr p.dias) ++
    " dias</td>\n                    <td class=\"valor\">" ++
    (formatar_real c.valor_diario) ++
    "</td>\n                </tr>\n            "

/-- Optional note block (src/teste.py lines 241-246): rendered only for a
truthy (nonempty) note, with the note text inserted directly. -/
def blocoObservacao (c : Calc) : String :=
  if c.observacao ≠ "" then
    "\n                <div class=\"observacao\">\n                    " ++ ("<strong>Observação:</strong> " ++ (c.observacao ++ "\n                </div>\n            "))
  else ""

/-- Deduction subtotal line (src/teste.py lines 248-252). -/
def subtotalDesconto (c : Calc) : String :=
  "\n            <div class=\"total\">\n                SUBTOTAL DE DESCONTO: " ++
    (intStr c.totais.total_dias_ausentes) ++
    " dias = " ++
    (formatar_real c.totais.valor_a_descontar) ++
    "\n            </div>\n        "

/-- Static opening of the entitlement table (src/teste.py lines 255-266). -/
def secaoDireitos : String :=
  "\n            <div class=\"secao-titulo\">VALORES QUE TEM DIREITO</div>\n            <table>\n                <thead>\n                    <tr>\n                        <th>Mês/Período</th>\n                        <th style=\"text-align: center;\">Dias</th>\n                        <th style=\"text-align: right;\">Valor</th>\n                    </tr>\n                </thead>\n                <tbody>\n        "

/-- One entitlement table row (src/teste.py lines 269-275). -/
def linhaDireito (p : PeriodoDireito) : String :=
  "\n                <tr>\n                    <td>" ++
    p.mes ++
    "</td>\n                    <td style=\"text-align: center;\">" ++
    (intStr p.dias) ++
    " dias</td>\n                    <td class=\"valor\">" ++
    (formatar_real p.valor) ++
    "</td>\n                </tr>\n            "

/-- Entitlement total, final value, refund date and summary blocks
(src/teste.py lines 277-300). -/
def blocoFinal (hoje : String) (c : Calc) : String :=
  "\n                </tbody>\n            </table>\n            \n            <div class=\"total-direito\">\n                Total de direito: " ++
    (formatar_real c.totais.total_valor_direito) ++
    "\n            </div>\n            \n            <div class=\"info-reembolso\">\n                <strong>Valor de direito abatendo o valor descontado:</strong> " ++
    (formatar_real c.totais.valor_final) ++
    "<br>\n                <strong>Data de reembolso:</strong> " ++
    (c.data_reembolso.getD hoje) ++
    "\n            </div>\n            \n            <div style=\"margin-top: 20px; padding: 15px; background: #f8f9fa; border-left: 4px solid #2c3e50;\">\n                <strong>Resumo do Cálculo:</strong><br>\n                • Total de dias de direito: " ++
    (intStr c.totais.total_dias_direito) ++
    " dias<br>\n                • Total de dias ausentes: " ++
    (intStr c.totais.total_dias_ausentes) ++
    " dias<br>\n                • Dias trabalhados: " ++
    (intStr c.totais.dias_trabalhados) ++
    " dias<br>\n                • Dias-base da empresa: " ++
    (intStr c.dias_base) ++
    " dias<br>\n                • Dias a descontar: " ++
    (intStr c.totais.dias_a_descontar) ++
    " dias<br>\n                • Valor diário: " ++
    (formatar_real c.valor_diario) ++
    "\n            </div>\n        </div>\n        "

/-- One record's full block, appended segment by segment exactly as the
source's `+=` chain does (src/teste.py lines 203-300). -/
def render_calc (hoje : String) (c : Calc) : String :=
  cabecalhoCalc c ++ secaoAfastamentos ++
    String.join (c.periodos_afastamento.map (linhaAfastamento c)) ++
    "</tbody></table>" ++ blocoObservacao c ++ subtotalDesconto c ++
    secaoDireitos ++ String.join (c.periodos_direito.map linhaDireito) ++
    blocoFinal hoje c

/-- Document footer (src/teste.py lines 302-305). -/
def rodapeHtml : String :=
  "\n    </body>\n    </html>\n    "

/-- Direct translation of `gerar_html_relatorio` (src/teste.py lines
109-307): the styled document head, one block per record (the source's
accumulation loop, as a join over the record list), and the closing tags.
`hoje` models `date.today().strftime('%d/%m/%Y')`. -/
def gerar_html_relatorio (hoje : String) (calculos : List Calc) : String :=
  cabecalhoHtml ++ String.join (calculos.map (render_calc hoje)) ++ rodapeHtml

/-- Proof-side predicate: the first character, if any, is not a decimal
digit. -/
def headNotDigit : List Char → Prop
  | [] => True
  | c :: _ => isDigitChar c = false

/-- Proof-side predicate: `sub` occurs contiguously inside `l`. -/
def containsSub (l sub : List Char) : Prop := ∃ s t, l = s ++ (sub ++ t)

end Teste

namespace Teste

/-! ## Theorems -/

/-- Helper: `Finset.Icc a b` over `ℤ` decomposes at its left end. -/
theorem Icc_int_insert_left (a b : ℤ) (h : a ≤ b) :
    Finset.Icc a b = insert a (Finset.Icc (a + 1) b) := by
  ext x
  simp only [Finset.mem_Icc, Finset.mem_insert]
  omega

/-- Helper: `contar_dias_uteis` computes the specification count. -/
theorem contar_dias_uteis_eq_spec (a b : ℤ) :
    contar_dias_uteis a b = diasUteisSpec a b := by
  rw [contar_dias_uteis]
  split
  · rename_i h
    unfold diasUteisSpec
    rw [Finset.Icc_eq_empty (by omega)]
    simp
  · rename_i h
    have hab : a ≤ b := by omega
    have ih := contar_dias_uteis_eq_spec (a + 1) b
    unfold diasUteisSpec
    rw [Icc_int_insert_left a b hab, Finset.filter_insert]
    have hmem : a ∉ Finset.Icc (a + 1) b := by
      simp only [Finset.mem_Icc]; omega
    split
    · rw [Finset.card_insert_of_not_mem (fun hc => hmem (Finset.mem_of_mem_filter a hc))]
      rw [ih]
      unfold diasUteisSpec
      push_cast
      ring
    · rw [ih]
      unfold diasUteisSpec
      omega
termination_by (b + 1 - a).toNat
decreasing_by omega

/-- Helper: one unfolding step of `contar_dias_uteis` on a nonempty range. -/
theorem contar_dias_uteis_step (a b : ℤ) (h : a ≤ b) :
    contar_dias_uteis a b =
      (if weekday a < 5 then 1 else 0) + contar_dias_uteis (a + 1) b := by
  rw [contar_dias_uteis, if_neg (by omega)]

/-- Helper: `contar_dias_uteis` on an empty range. -/
theorem contar_dias_uteis_gt (a b : ℤ) (h : a > b) :
    contar_dias_uteis a b = 0 := by
  rw [contar_dias_uteis, if_pos h]

/-- C2: for every pair of calendar dates (as ordinals), `contar_dias_uteis`
returns the number of dates in the inclusive range whose weekday is
Monday through Friday (Saturdays and Sundays excluded, holidays counted),
and returns 0 whenever the start exceeds the end; it is total by
construction (a pure function with no error cases). -/
theorem C2_contar_dias_uteis_correct (a b : ℤ) :
    contar_dias_uteis a b = ((Finset.Icc a b).filter (fun d => ehDiaUtil d)).card ∧
    (a > b → contar_dias_uteis a b = 0) := by
  constructor
  · rw [contar_dias_uteis_eq_spec]
    unfold diasUteisSpec ehDiaUtil
    norm_cast
  · intro h
    rw [contar_dias_uteis]
    simp [h]

/-- C4: for every calendar date `a`, any range of 7 consecutive days
`[a, a + 6]` contains exactly 5 business days. -/
theorem C4_sete_dias_consecutivos (a : ℤ) :
    contar_dias_uteis a (a + 6) = 5 := by
  rw [contar_dias_uteis_step a (a + 6) (by omega),
      contar_dias_uteis_step (a + 1) (a + 6) (by omega),
      contar_dias_uteis_step (a + 1 + 1) (a + 6) (by omega),
      contar_dias_uteis_step (a + 1 + 1 + 1) (a + 6) (by omega),
      contar_dias_uteis_step (a + 1 + 1 + 1 + 1) (a + 6) (by omega),
      contar_dias_uteis_step (a + 1 + 1 + 1 + 1 + 1) (a + 6) (by omega),
      contar_dias_uteis_step (a + 1 + 1 + 1 + 1 + 1 + 1) (a + 6) (by omega),
      contar_dias_uteis_gt (a + 1 + 1 + 1 + 1 + 1 + 1 + 1) (a + 6) (by omega)]
  simp only [weekday]
  split_ifs <;> omega

/-- C1: `calcular_desconto_total` returns totals whose every field satisfies
the Policy-B equations: entitlement-day sum, entitlement-value sum,
absence-day sum, days worked as the difference, days to deduct as
`max 0 (dias_base - dias_trabalhados)`, the monetary deduction as
`dias_a_descontar * valor_diario`, and the final value as the entitlement
value minus the deduction. -/
theorem C1_calcular_desconto_total_campos (pd : List PeriodoDireito)
    (pa : List PeriodoAfastamento) (dias_base : ℤ) (valor_diario : ℚ) :
    (calcular_desconto_total pd pa dias_base valor_diario).total_dias_direito =
        (pd.map (fun p => p.dias)).sum ∧
    (calcular_desconto_total pd pa dias_base valor_diario).total_valor_direito =
        (pd.map (fun p => p.valor)).sum ∧
    (calcular_desconto_total pd pa dias_base valor_diario).total_dias_ausentes =
        (pa.map (fun p => p.dias)).sum ∧
    (calcular_desconto_total pd pa dias_base valor_diario).dias_trabalhados =
        (pd.map (fun p => p.dias)).sum - (pa.map (fun p => p.dias)).sum ∧
    (calcular_desconto_total pd pa dias_base valor_diario).dias_a_descontar =
        max 0 (dias_base -
          (calcular_desconto_total pd pa dias_base valor_diario).dias_trabalhados) ∧
    (calcular_desconto_total pd pa dias_base valor_diario).valor_a_descontar =
        ((calcular_desconto_total pd pa dias_base valor_diario).dias_a_descontar : ℚ) *
          valor_diario ∧
    (calcular_desconto_total pd pa dias_base valor_diario).valor_final =
        (calcular_desconto_total pd pa dias_base valor_diario).total_valor_direito -
          (calcular_desconto_total pd pa dias_base valor_diario).valor_a_descontar := by
  unfold calcular_desconto_total
  refine ⟨rfl, rfl, rfl, rfl, ?_, rfl, rfl⟩
  dsimp only
  split_ifs with h
  · omega
  · omega

/-- C10: on every input, the totals record satisfies the internal-consistency
invariant (`dias_a_descontar ≥ 0`, `valor_a_descontar` is the day count times
the daily rate, `valor_final` is the entitlement value minus the deduction),
and no floor at zero is applied to `valor_final`: with no periods at all,
one base day and a daily rate of 1, the final value is negative. -/
theorem C10_invariantes_totais :
    (∀ (pd : List PeriodoDireito) (pa : List PeriodoAfastamento)
        (dias_base : ℤ) (valor_diario : ℚ),
      0 ≤ (calcular_desconto_total pd pa dias_base valor_diario).dias_a_descontar ∧
      (calcular_desconto_total pd pa dias_base valor_diario).valor_a_descontar =
        ((calcular_desconto_total pd pa dias_base valor_diario).dias_a_descontar : ℚ) *
          valor_diario ∧
      (calcular_desconto_total pd pa dias_base valor_diario).valor_final =
        (calcular_desconto_total pd pa dias_base valor_diario).total_valor_direito -
          (calcular_desconto_total pd pa dias_base valor_diario).valor_a_descontar) ∧
    (calcular_desconto_total [] [] 1 1).valor_final < 0 := by
  constructor
  · intro pd pa dias_base valor_diario
    unfold calcular_desconto_total
    refine ⟨?_, rfl, rfl⟩
    dsimp only
    split_ifs <;> omega
  · norm_num [calcular_desconto_total]

/-- C5: on empty entitlement and absence lists all sums are zero, and when
`dias_base ≥ 1` the days to deduct equal `dias_base`, the deduction equals
`dias_base * valor_diario` and the final value is its negation. -/
theorem C5_listas_vazias (dias_base : ℤ) (valor_diario : ℚ)
    (h : 1 ≤ dias_base) :
    (calcular_desconto_total [] [] dias_base valor_diario).total_dias_direito = 0 ∧
    (calcular_desconto_total [] [] dias_base valor_diario).total_valor_direito = 0 ∧
    (calcular_desconto_total [] [] dias_base valor_diario).total_dias_ausentes = 0 ∧
    (calcular_desconto_total [] [] dias_base valor_diario).dias_trabalhados = 0 ∧
    (calcular_desconto_total [] [] dias_base valor_diario).dias_a_descontar = dias_base ∧
    (calcular_desconto_total [] [] dias_base valor_diario).valor_a_descontar =
      (dias_base : ℚ) * valor_diario ∧
    (calcular_desconto_total [] [] dias_base valor_diario).valor_final =
      -((dias_base : ℚ) * valor_diario) := by
  unfold calcular_desconto_total
  have hnot : ¬ ((0 : ℤ) - 0 ≥ dias_base) := by omega
  have h2 : max (0 : ℤ) (dias_base - (0 - 0)) = dias_base := by omega
  refine ⟨by norm_num, by norm_num, by norm_num, by norm_num, ?_, ?_, ?_⟩ <;>
    (simp only [List.map_nil, List.sum_nil]; rw [if_neg hnot, h2]; try ring)

/-- Witness for C5 at `dias_base = 21`, `valor_diario = 79.24`. -/
theorem C5_listas_vazias_witness :
    (1 : ℤ) ≤ 21 ∧
    (calcular_desconto_total [] [] 21 (79.24 : ℚ)).dias_a_descontar = 21 ∧
    (calcular_desconto_total [] [] 21 (79.24 : ℚ)).valor_final =
      -(((21 : ℤ) : ℚ) * (79.24 : ℚ)) :=
  ⟨by decide, (C5_listas_vazias 21 (79.24 : ℚ) (by decide)).2.2.2.2.1,
    (C5_listas_vazias 21 (79.24 : ℚ) (by decide)).2.2.2.2.2.2⟩

/-- C6: the concrete Policy-B scenario with daily rate 79.24, 21 base days,
one entitlement period of 21 days worth 1663.04 and one absence period of
5 days yields 16 days worked, 5 days to deduct, a deduction of 396.20 and a
final value of 1266.84, exactly (rational arithmetic). -/
theorem C6_cenario_concreto :
    (calcular_desconto_total
        [{ mes := "Novembro/2024", dias := 21, valor := (1663.04 : ℚ),
           data_inicio := none, data_fim := none }]
        [{ descricao := "Atestado", dias := 5, data_inicio := none, data_fim := none }]
        21 (79.24 : ℚ)).dias_trabalhados = 16 ∧
    (calcular_desconto_total
        [{ mes := "Novembro/2024", dias := 21, valor := (1663.04 : ℚ),
           data_inicio := none, data_fim := none }]
        [{ descricao := "Atestado", dias := 5, data_inicio := none, data_fim := none }]
        21 (79.24 : ℚ)).dias_a_descontar = 5 ∧
    (calcular_desconto_total
        [{ mes := "Novembro/2024", dias := 21, valor := (1663.04 : ℚ),
           data_inicio := none, data_fim := none }]
        [{ descricao := "Atestado", dias := 5, data_inicio := none, data_fim := none }]
        21 (79.24 : ℚ)).valor_a_descontar = (396.20 : ℚ) ∧
    (calcular_desconto_total
        [{ mes := "Novembro/2024", dias := 21, valor := (1663.04 : ℚ),
           data_inicio := none, data_fim := none }]
        [{ descricao := "Atestado", dias := 5, data_inicio := none, data_fim := none }]
        21 (79.24 : ℚ)).valor_final = (1266.84 : ℚ) := by
  refine ⟨?_, ?_, ?_, ?_⟩ <;>
    norm_num [calcular_desconto_total]

/-- C7: `formatar_real` produces the Brazilian format (period for
thousands, comma for decimals, fixed marker `R$ `): the three concrete
values from the specification, and for every rational input the output
starts with the fixed three-character marker. -/
theorem C7_formatar_real :
    formatar_real (1234.5 : ℚ) = "R$ 1.234,50" ∧
    formatar_real 0 = "R$ 0,00" ∧
    formatar_real (999999.99 : ℚ) = "R$ 999.999,99" ∧
    ∀ v : ℚ, ∃ resto : List Char,
      (formatar_real v).data = 'R' :: '$' :: ' ' :: resto := by
  refine ⟨?_, ?_, ?_, ?_⟩
  · have hc : roundHalfEven ((1234.5 : ℚ) * 100) = 123450 := by
      norm_num [roundHalfEven, ratFloor]
    unfold formatar_real format_us
    rw [hc]
    decide
  · have hc : roundHalfEven ((0 : ℚ) * 100) = 0 := by
      norm_num [roundHalfEven, ratFloor]
    unfold formatar_real format_us
    rw [hc]
    decide
  · have hc : roundHalfEven ((999999.99 : ℚ) * 100) = 99999999 := by
      norm_num [roundHalfEven, ratFloor]
    unfold formatar_real format_us
    rw [hc]
    decide
  · intro v
    exact ⟨replaceChar 'X' '.' (replaceChar '.' ',' (replaceChar ',' 'X' (format_us v))), rfl⟩

/-! ### Decimal digit lemmas -/

/-- Helper: `digitsOfNatAux` ignores the fuel once it bounds the input. -/
theorem digitsOfNatAux_congr (n : ℕ) : ∀ f1 f2, n ≤ f1 → n ≤ f2 →
    digitsOfNatAux f1 n = digitsOfNatAux f2 n := by
  induction n using Nat.strong_induction_on with
  | _ n ih =>
    intro f1 f2 h1 h2
    match f1, f2 with
    | 0, 0 => rfl
    | 0, f2 + 1 =>
      interval_cases n
      simp [digitsOfNatAux]
    | f1 + 1, 0 =>
      interval_cases n
      simp [digitsOfNatAux]
    | f1 + 1, f2 + 1 =>
      simp only [digitsOfNatAux]
      split
      · rfl
      · rename_i hn
        have hd : n / 10 < n := Nat.div_lt_self (by omega) (by omega)
        rw [ih (n / 10) hd f1 f2 (by omega) (by omega)]

/-- Helper: recursion equation of `digitsOfNat`. -/
theorem digitsOfNat_eq (n : ℕ) :
    digitsOfNat n = if n < 10 then [n] else digitsOfNat (n / 10) ++ [n % 10] := by
  match n with
  | 0 => simp [digitsOfNat, digitsOfNatAux]
  | m + 1 =>
    show digitsOfNatAux (m + 1) (m + 1) = _
    simp only [digitsOfNatAux]
    split
    · rfl
    · rename_i h
      have hd : (m + 1) / 10 < m + 1 := Nat.div_lt_self (by omega) (by omega)
      rw [digitsOfNatAux_congr ((m + 1) / 10) m ((m + 1) / 10) (by omega) (le_refl _)]
      rfl

/-- Helper: every entry of `digitsOfNat` is a digit value. -/
theorem digitsOfNat_lt (n : ℕ) : ∀ d ∈ digitsOfNat n, d < 10 := by
  induction n using Nat.strong_induction_on with
  | _ n ih =>
    rw [digitsOfNat_eq]
    split
    · rename_i h
      intro d hd
      simp only [List.mem_singleton] at hd
      omega
    · rename_i h
      intro d hd
      simp only [List.mem_append, List.mem_singleton] at hd
      rcases hd with hd | hd
      · exact ih (n / 10) (Nat.div_lt_self (by omega) (by omega)) d hd
      · omega

/-- Helper: `digitsOfNat` is never empty. -/
theorem digitsOfNat_ne_nil (n : ℕ) : digitsOfNat n ≠ [] := by
  rw [digitsOfNat_eq]
  split <;> simp

/-- Helper: `digitChar` of a digit value is a digit character with that
value, and is neither a minus sign nor a point. -/
theorem digitChar_spec (d : ℕ) (h : d < 10) :
    isDigitChar (digitChar d) = true ∧ digitVal (digitChar d) = d ∧
    digitChar d ≠ '-' ∧ digitChar d ≠ '.' := by
  interval_cases d <;> exact ⟨by decide, by decide, by decide, by decide⟩

/-- Helper: recursion equation of `natChars`. -/
theorem natChars_eq (n : ℕ) :
    natChars n =
      if n < 10 then [digitChar n] else natChars (n / 10) ++ [digitChar (n % 10)] := by
  unfold natChars
  rw [digitsOfNat_eq]
  split <;> simp

/-- Helper: every character of `natChars` is a digit character. -/
theorem natChars_digits (n : ℕ) : ∀ c ∈ natChars n, isDigitChar c = true := by
  intro c hc
  unfold natChars at hc
  simp only [List.mem_map] at hc
  obtain ⟨d, hd, rfl⟩ := hc
  exact (digitChar_spec d (digitsOfNat_lt n d hd)).1

/-- Helper: `natChars` is never empty. -/
theorem natChars_ne_nil (n : ℕ) : natChars n ≠ [] := by
  unfold natChars
  simp [digitsOfNat_ne_nil n]

/-- Helper: folding the digit characters of `n` onto an accumulator. -/
theorem foldl_digitVal_natChars (n : ℕ) : ∀ acc : ℕ,
    (natChars n).foldl (fun a c => a * 10 + digitVal c) acc =
      acc * 10 ^ (natChars n).length + n := by
  induction n using Nat.strong_induction_on with
  | _ n ih =>
    intro acc
    rw [natChars_eq]
    split
    · rename_i h
      simp only [List.foldl_cons, List.foldl_nil, List.length_singleton, pow_one]
      rw [(digitChar_spec n h).2.1]
    · rename_i h
      have hd : n / 10 < n := Nat.div_lt_self (by omega) (by omega)
      rw [List.foldl_append, ih (n / 10) hd acc]
      simp only [List.foldl_cons, List.foldl_nil, List.length_append,
        List.length_singleton]
      rw [(digitChar_spec (n % 10) (by omega)).2.1]
      have h10 : n / 10 * 10 + n % 10 = n := by omega
      calc (acc * 10 ^ (natChars (n / 10)).length + n / 10) * 10 + n % 10
          = acc * (10 ^ (natChars (n / 10)).length * 10) +
              (n / 10 * 10 + n % 10) := by ring
        _ = acc * 10 ^ ((natChars (n / 10)).length + 1) + n := by
            rw [h10, pow_succ]

/-- Helper: `numFromDigits` inverts `natChars`. -/
theorem numFromDigits_natChars (n : ℕ) : numFromDigits (natChars n) = n := by
  unfold numFromDigits
  rw [foldl_digitVal_natChars n 0]
  simp

/-- Helper: `natChars` of a number below `10 ^ k` has at most `k` digits
(for positive `k`). -/
theorem natChars_length_le (k : ℕ) : ∀ f, f < 10 ^ k → 1 ≤ k →
    (natChars f).length ≤ k := by
  induction k with
  | zero => omega
  | succ k ihk =>
    intro f hf _
    rw [natChars_eq]
    split
    · simp
    · rename_i h
      have hk1 : 1 ≤ k := by
        by_contra hc
        have : k = 0 := by omega
        subst this
        have h10 : (10 : ℕ) ^ (0 + 1) = 10 := by norm_num
        omega
      have hf10 : f / 10 < 10 ^ k := by
        rw [Nat.div_lt_iff_lt_mul (by norm_num)]
        calc f < 10 ^ (k + 1) := hf
          _ = 10 ^ k * 10 := by rw [pow_succ]
      simp only [List.length_append, List.length_singleton]
      have := ihk (f / 10) hf10 hk1
      omega

/-! ### Digit-run parsing lemmas -/

/-- Helper: a digit character is neither a minus sign nor a point. -/
theorem isDigitChar_ne (c : Char) (h : isDigitChar c = true) :
    c ≠ '-' ∧ c ≠ '.' := by
  constructor
  · intro hc
    subst hc
    exact absurd h (by decide)
  · intro hc
    subst hc
    exact absurd h (by decide)

/-- Helper: `splitDigits` splits exactly at a leading all-digit block. -/
theorem splitDigits_append (ds : List Char) : ∀ rest,
    (∀ c ∈ ds, isDigitChar c = true) → headNotDigit rest →
    splitDigits (ds ++ rest) = (ds, rest) := by
  induction ds with
  | nil =>
    intro rest _ hr
    match rest with
    | [] => rfl
    | c :: cs =>
      simp only [headNotDigit] at hr
      simp [splitDigits, hr]
  | cons c cs ih =>
    intro rest hds hr
    have hc : isDigitChar c = true := hds c (by simp)
    simp only [List.cons_append, splitDigits, hc, if_true, List.append_eq]
    rw [ih rest (fun d hd => hds d (by simp [hd])) hr]

/-- Helper: folding digit values over a zero run multiplies the
accumulator by the corresponding power of ten. -/
theorem foldl_digitVal_replicate (m : ℕ) : ∀ acc : ℕ,
    (List.replicate m '0').foldl (fun a c => a * 10 + digitVal c) acc =
      acc * 10 ^ m := by
  induction m with
  | zero => intro acc; simp
  | succ m ihm =>
    intro acc
    simp only [List.replicate_succ, List.foldl_cons]
    rw [ihm]
    have hd : digitVal '0' = 0 := by decide
    rw [hd, pow_succ]
    ring

/-- Helper: every character of a left-padded digit run is a digit. -/
theorem padLeftZeros_digits (k : ℕ) (n : ℕ) :
    ∀ c ∈ padLeftZeros k (natChars n), isDigitChar c = true := by
  intro c hc
  unfold padLeftZeros at hc
  rcases List.mem_append.mp hc with hc | hc
  · rw [List.eq_of_mem_replicate hc]
    decide
  · exact natChars_digits n c hc

/-- Helper: length of a left-padded digit run. -/
theorem padLeftZeros_length (k : ℕ) (ds : List Char) (h : ds.length ≤ k) :
    (padLeftZeros k ds).length = k := by
  unfold padLeftZeros
  simp only [List.length_append, List.length_replicate]
  omega

/-- Helper: value of a left-padded digit run. -/
theorem numFromDigits_padLeftZeros (k n : ℕ) :
    numFromDigits (padLeftZeros k (natChars n)) = n := by
  unfold numFromDigits padLeftZeros
  rw [List.foldl_append, foldl_digitVal_replicate, foldl_digitVal_natChars]
  simp

/-- Helper: `parseNum` on input that does not start with a minus sign. -/
theorem parseNum_not_neg (s : List Char) (h : s.head? ≠ some '-') :
    parseNum s = parseNumCore s := by
  match s with
  | [] => rfl
  | c :: t =>
    unfold parseNum
    split
    · rename_i heq
      rw [List.cons.injEq] at heq
      exact absurd (by rw [heq.1]; rfl : (c :: t).head? = some '-') h
    · rfl

/-- Helper: `parseNum` on a minus sign negates the unsigned value. -/
theorem parseNum_neg (t : List Char) :
    parseNum ('-' :: t) = (parseNumCore t).map (fun p => (-p.1, p.2)) := rfl

/-- Helper: `headNotDigit` on a cons cell. -/
theorem headNotDigit_cons (c : Char) (l : List Char) :
    headNotDigit (c :: l) ↔ isDigitChar c = false := Iff.rfl

/-- Helper: `parseNumCore` on an integer digit run followed by a
non-number character. -/
theorem parseNumCore_int (A : ℕ) (rest : List Char) (hr : headNotDigit rest)
    (hdot : rest.head? ≠ some '.') :
    parseNumCore (natChars A ++ rest) = some ((A : ℚ), rest) := by
  unfold parseNumCore
  rw [splitDigits_append (natChars A) rest (natChars_digits A) hr]
  dsimp only
  rw [if_neg (natChars_ne_nil A), numFromDigits_natChars]
  match rest with
  | [] => rfl
  | c :: t =>
    have hc : c ≠ '.' := fun h => hdot (by rw [h]; rfl)
    dsimp only
    rw [if_neg hc]

/-- Helper: `parseNumCore` on a digit run, point, padded fractional run. -/
theorem parseNumCore_frac (A F k : ℕ) (rest : List Char)
    (hr : headNotDigit rest) (hk : 1 ≤ k) (hF : F < 10 ^ k) :
    parseNumCore (natChars A ++ '.' :: (padLeftZeros k (natChars F) ++ rest)) =
      some ((A : ℚ) + (F : ℚ) / (10 : ℚ) ^ k, rest) := by
  have hlenF : (natChars F).length ≤ k := natChars_length_le k F hF hk
  have hpadne : padLeftZeros k (natChars F) ≠ [] := by
    intro hnil
    have hlen := padLeftZeros_length k (natChars F) hlenF
    rw [hnil] at hlen
    simp at hlen
    omega
  unfold parseNumCore
  rw [splitDigits_append (natChars A) ('.' :: (padLeftZeros k (natChars F) ++ rest))
    (natChars_digits A) ((headNotDigit_cons _ _).mpr (by decide))]
  dsimp only
  rw [if_neg (natChars_ne_nil A), numFromDigits_natChars, if_pos rfl,
    splitDigits_append (padLeftZeros k (natChars F)) rest (padLeftZeros_digits k F) hr]
  dsimp only
  rw [if_neg hpadne, numFromDigits_padLeftZeros,
    padLeftZeros_length k (natChars F) hlenF]

/-! ### Exact decimal representation lemmas -/

/-- Helper: if `q * 10^j` is integral then the denominator of `q` divides
`10^j`. -/
theorem den_dvd_of_mul_pow (q : ℚ) (j : ℕ) (h : (q * (10 : ℚ) ^ j).den = 1) :
    q.den ∣ 10 ^ j := by
  have hz : ((q * (10 : ℚ) ^ j).num : ℚ) = q * (10 : ℚ) ^ j := by
    conv_rhs => rw [← Rat.num_div_den (q * (10 : ℚ) ^ j)]
    rw [h]
    simp
  have hq : q = Rat.divInt (q * (10 : ℚ) ^ j).num ((10 : ℕ) ^ j : ℤ) := by
    rw [Rat.divInt_eq_div, hz]
    have hpow : (((10 : ℕ) ^ j : ℤ) : ℚ) = (10 : ℚ) ^ j := by push_cast; ring
    rw [hpow]
    field_simp
  have hdvd := Rat.den_dvd (q * (10 : ℚ) ^ j).num ((10 : ℕ) ^ j : ℤ)
  rw [← hq] at hdvd
  exact_mod_cast hdvd

/-- Helper: a divisor of a power of ten divides the power of ten with the
divisor itself as exponent. -/
theorem dvd_pow_ten_den (d : ℕ) (j : ℕ) (h : d ∣ 10 ^ j) : d ∣ 10 ^ d := by
  have h25 : d ∣ 2 ^ j * 5 ^ j := by
    rw [← mul_pow]
    norm_num at h ⊢
    exact h
  obtain ⟨d2, d5, h2, h5, hd⟩ := exists_dvd_and_dvd_of_dvd_mul h25
  obtain ⟨a, _, rfl⟩ := (Nat.dvd_prime_pow Nat.prime_two).mp h2
  obtain ⟨b, _, rfl⟩ := (Nat.dvd_prime_pow Nat.prime_five).mp h5
  subst hd
  have ha : a ≤ 2 ^ a * 5 ^ b := le_of_lt (by
    calc a < 2 ^ a := Nat.lt_two_pow a
      _ ≤ 2 ^ a * 5 ^ b := Nat.le_mul_of_pos_right _ (Nat.pos_pow_of_pos b (by norm_num)))
  have hb : b ≤ 2 ^ a * 5 ^ b := le_of_lt (by
    calc b < 2 ^ b := Nat.lt_two_pow b
      _ ≤ 5 ^ b := Nat.pow_le_pow_left (by norm_num) b
      _ ≤ 2 ^ a * 5 ^ b := Nat.le_mul_of_pos_left _ (Nat.pos_pow_of_pos a (by norm_num)))
  have hgoal : 2 ^ a * 5 ^ b ∣ 2 ^ (2 ^ a * 5 ^ b) * 5 ^ (2 ^ a * 5 ^ b) :=
    mul_dvd_mul (pow_dvd_pow 2 ha) (pow_dvd_pow 5 hb)
  calc 2 ^ a * 5 ^ b ∣ 2 ^ (2 ^ a * 5 ^ b) * 5 ^ (2 ^ a * 5 ^ b) := hgoal
    _ = 10 ^ (2 ^ a * 5 ^ b) := by rw [← mul_pow]; norm_num

/-- Helper: if the denominator of `q` divides `10^m` then `q * 10^m` is
integral. -/
theorem mul_pow_den_one (q : ℚ) (m : ℕ) (h : q.den ∣ 10 ^ m) :
    (q * (10 : ℚ) ^ m).den = 1 := by
  obtain ⟨c, hc⟩ := h
  have hden : (q.den : ℚ) ≠ 0 := by
    have := q.den_pos
    positivity
  have hcast : (10 : ℚ) ^ m = (q.den : ℚ) * (c : ℚ) := by
    have : ((10 ^ m : ℕ) : ℚ) = ((q.den * c : ℕ) : ℚ) := by rw [hc]
    push_cast at this
    linarith [this]
  have hqden : (q.num : ℚ) = q * (q.den : ℚ) :=
    (div_eq_iff hden).mp (Rat.num_div_den q)
  have hval : q * (10 : ℚ) ^ m = ((q.num * (c : ℤ) : ℤ) : ℚ) := by
    rw [hcast, ← mul_assoc, ← hqden]
    push_cast
    ring
  rw [hval, Rat.den_intCast]

/-- Helper: under the exact-decimal hypothesis, `decExp` finds an exponent
that clears the denominator. -/
theorem decExp_spec (q : ℚ) (hq : ∃ j, (q * (10 : ℚ) ^ j).den = 1) :
    (q * (10 : ℚ) ^ ((decExp q).getD 0)).den = 1 := by
  obtain ⟨j, hj⟩ := hq
  have h1 : (q * (10 : ℚ) ^ (q.den)).den = 1 :=
    mul_pow_den_one q q.den (dvd_pow_ten_den q.den j (den_dvd_of_mul_pow q j hj))
  have hsome : (decExp q).isSome := by
    unfold decExp
    rw [List.find?_isSome]
    exact ⟨q.den, by simp, by simp [h1]⟩
  obtain ⟨k, hk⟩ := Option.isSome_iff_exists.mp hsome
  have hk2 := hk
  unfold decExp at hk2
  have hp := List.find?_some hk2
  simp only [beq_iff_eq] at hp
  have hgetD : (decExp q).getD 0 = k := by rw [hk]; rfl
  rw [hgetD]
  exact hp

/-- Helper: `parseNumCore` reads back the unsigned decimal rendering of
`n / 10^k`. -/
theorem parseNumCore_decimal (n k : ℕ) (rest : List Char) (hr : headNotDigit rest) :
    parseNumCore ((if k = 0 then natChars n ++ ['.', '0']
        else natChars (n / 10 ^ k) ++ '.' :: padLeftZeros k (natChars (n % 10 ^ k))) ++ rest) =
      some ((n : ℚ) / (10 : ℚ) ^ k, rest) := by
  by_cases hk0 : k = 0
  · subst hk0
    rw [if_pos rfl]
    have hpad : padLeftZeros 1 (natChars 0) = ['0'] := rfl
    have hlist : (natChars n ++ ['.', '0']) ++ rest =
        natChars n ++ '.' :: (padLeftZeros 1 (natChars 0) ++ rest) := by
      rw [hpad]
      simp
    rw [hlist, parseNumCore_frac n 0 1 rest hr (le_refl 1) (by norm_num)]
    norm_num
  · rw [if_neg hk0]
    have hk1 : 1 ≤ k := by omega
    have hP : (0 : ℚ) < (10 : ℚ) ^ k := by positivity
    have hlist : (natChars (n / 10 ^ k) ++ '.' :: padLeftZeros k (natChars (n % 10 ^ k))) ++ rest =
        natChars (n / 10 ^ k) ++ '.' :: (padLeftZeros k (natChars (n % 10 ^ k)) ++ rest) := by
      simp
    rw [hlist, parseNumCore_frac (n / 10 ^ k) (n % 10 ^ k) k rest hr hk1
      (Nat.mod_lt _ (by positivity))]
    have hmod : n / 10 ^ k * 10 ^ k + n % 10 ^ k = n := by
      rw [mul_comm]
      exact Nat.div_add_mod n (10 ^ k)
    have hval : ((n / 10 ^ k : ℕ) : ℚ) + ((n % 10 ^ k : ℕ) : ℚ) / (10 : ℚ) ^ k =
        (n : ℚ) / (10 : ℚ) ^ k := by
      rw [eq_div_iff (ne_of_gt hP)]
      field_simp
      exact_mod_cast hmod
    rw [hval]

/-- Helper: the head of the decimal rendering body is a digit, hence not a
minus sign. -/
theorem decimal_body_head (n k : ℕ) (rest : List Char) :
    ((if k = 0 then natChars n ++ ['.', '0']
        else natChars (n / 10 ^ k) ++ '.' :: padLeftZeros k (natChars (n % 10 ^ k))) ++
      rest).head? ≠ some '-' := by
  by_cases hk0 : k = 0
  · subst hk0
    rw [if_pos rfl]
    obtain ⟨c, t, hct⟩ := List.exists_cons_of_ne_nil (natChars_ne_nil n)
    have hc : isDigitChar c = true := natChars_digits n c (by rw [hct]; simp)
    rw [hct]
    intro h
    simp only [List.cons_append, List.head?_cons, Option.some.injEq] at h
    exact (isDigitChar_ne c hc).1 h
  · rw [if_neg hk0]
    obtain ⟨c, t, hct⟩ := List.exists_cons_of_ne_nil (natChars_ne_nil (n / 10 ^ k))
    have hc : isDigitChar c = true := natChars_digits (n / 10 ^ k) c (by rw [hct]; simp)
    rw [hct]
    intro h
    simp only [List.cons_append, List.head?_cons, Option.some.injEq] at h
    exact (isDigitChar_ne c hc).1 h

/-- Helper: `parseNum` inverts `ratChars` on exactly-decimal rationals. -/
theorem parseNum_ratChars (q : ℚ) (hq : ∃ j, (q * (10 : ℚ) ^ j).den = 1)
    (rest : List Char) (hr : headNotDigit rest) :
    parseNum (ratChars q ++ rest) = some (q, rest) := by
  have hden1 := decExp_spec q hq
  unfold ratChars
  dsimp only
  set k := (decExp q).getD 0 with hk
  set units := (q * (10 : ℚ) ^ k).num with hu
  have hunits : ((units : ℤ) : ℚ) = q * (10 : ℚ) ^ k := by
    rw [hu]
    conv_rhs => rw [← Rat.num_div_den (q * (10 : ℚ) ^ k)]
    rw [hden1]
    simp
  have hp10 : (0 : ℚ) < (10 : ℚ) ^ k := by positivity
  have hqval : q = ((units : ℤ) : ℚ) / (10 : ℚ) ^ k := by
    rw [hunits]
    field_simp
  rw [← apply_ite (fun l => (if units < 0 then ['-'] else []) ++ l)]
  by_cases hneg : units < 0
  · rw [if_pos hneg]
    have hlist : (['-'] ++ (if k = 0 then natChars units.natAbs ++ ['.', '0']
        else natChars (units.natAbs / 10 ^ k) ++ '.' ::
          padLeftZeros k (natChars (units.natAbs % 10 ^ k)))) ++ rest =
        '-' :: ((if k = 0 then natChars units.natAbs ++ ['.', '0']
        else natChars (units.natAbs / 10 ^ k) ++ '.' ::
          padLeftZeros k (natChars (units.natAbs % 10 ^ k))) ++ rest) := by
      simp
    rw [hlist, parseNum_neg, parseNumCore_decimal units.natAbs k rest hr]
    have hnq : ((units.natAbs : ℕ) : ℚ) = -((units : ℤ) : ℚ) := by
      rw [Int.cast_natAbs, abs_of_neg hneg]
      push_cast
      ring
    simp only [Option.map_some']
    rw [hnq, hqval]
    ring_nf
  · rw [if_neg hneg]
    have hlist : (([] : List Char) ++ (if k = 0 then natChars units.natAbs ++ ['.', '0']
        else natChars (units.natAbs / 10 ^ k) ++ '.' ::
          padLeftZeros k (natChars (units.natAbs % 10 ^ k)))) ++ rest =
        (if k = 0 then natChars units.natAbs ++ ['.', '0']
        else natChars (units.natAbs / 10 ^ k) ++ '.' ::
          padLeftZeros k (natChars (units.natAbs % 10 ^ k))) ++ rest := by
      simp
    rw [hlist, parseNum_not_neg _ (decimal_body_head units.natAbs k rest),
      parseNumCore_decimal units.natAbs k rest hr]
    have hnq : ((units.natAbs : ℕ) : ℚ) = ((units : ℤ) : ℚ) := by
      rw [Int.cast_natAbs, abs_of_nonneg (le_of_not_lt hneg)]
    rw [hnq, ← hqval]


/-! ### JSON string escaping lemmas -/

/-- Helper: hexadecimal digit characters decode to their values. -/
theorem hexVal_hexChar (d : ℕ) (h : d < 16) : hexVal? (hexChar d) = some d := by
  interval_cases d <;> decide

/-- Helper: `parseJStr` stops at an unescaped quote. -/
theorem parseJStr_quote (rest : List Char) :
    parseJStr ('"' :: rest) = some ([], rest) := by
  rw [parseJStr.eq_def]
  dsimp only
  rw [if_pos rfl]

/-- Helper: `parseJStr` passes a plain character through. -/
theorem parseJStr_plain (c : Char) (rest : List Char) (h1 : c ≠ '"') (h2 : c ≠ '\\') :
    parseJStr (c :: rest) = (parseJStr rest).map (fun p => (c :: p.1, p.2)) := by
  rw [parseJStr.eq_def]
  dsimp only
  rw [if_neg h1, if_neg h2]
  cases parseJStr rest <;> rfl

/-- Helper: `parseJStr` decodes each two-character escape. -/
theorem parseJStr_esc2 (e d : Char) (rest : List Char)
    (h : (e = '"' ∧ d = '"') ∨ (e = '\\' ∧ d = '\\') ∨ (e = '/' ∧ d = '/') ∨
      (e = 'b' ∧ d = '\x08') ∨ (e = 'f' ∧ d = '\x0c') ∨ (e = 'n' ∧ d = '\n') ∨
      (e = 'r' ∧ d = '\x0d') ∨ (e = 't' ∧ d = '\t')) :
    parseJStr ('\\' :: e :: rest) = (parseJStr rest).map (fun p => (d :: p.1, p.2)) := by
  rcases h with ⟨he, hd⟩ | ⟨he, hd⟩ | ⟨he, hd⟩ | ⟨he, hd⟩ | ⟨he, hd⟩ | ⟨he, hd⟩ | ⟨he, hd⟩ | ⟨he, hd⟩ <;>
    subst he <;> subst hd <;>
    (rw [parseJStr.eq_def]; simp only [reduceIte]; cases parseJStr rest <;> rfl)

/-- Helper: `parseJStr` decodes a `\u00XX` escape. -/
theorem parseJStr_escU (d3 d4 : ℕ) (h3 : d3 < 16) (h4 : d4 < 16) (rest : List Char) :
    parseJStr ('\\' :: 'u' :: '0' :: '0' :: hexChar d3 :: hexChar d4 :: rest) =
      (parseJStr rest).map (fun p => (Char.ofNat (d3 * 16 + d4) :: p.1, p.2)) := by
  rw [parseJStr.eq_def]
  simp only [reduceIte]
  simp only [show hexVal? '0' = some 0 from by decide,
    hexVal_hexChar d3 h3, hexVal_hexChar d4 h4]
  have hv : ((0 * 16 + 0) * 16 + d3) * 16 + d4 = d3 * 16 + d4 := by omega
  cases parseJStr rest <;> simp [hv]

/-- Helper: `parseJStr` inverts `escapeStr`: the escaped text followed by
the closing quote parses back to the original text. -/
theorem parseJStr_escape (s : List Char) : ∀ rest : List Char,
    parseJStr (escapeStr s ++ ('"' :: rest)) = some (s, rest) := by
  induction s with
  | nil =>
    intro rest
    rw [show escapeStr [] = [] from rfl, List.nil_append, parseJStr_quote]
  | cons c cs ih =>
    intro rest
    rw [show escapeStr (c :: cs) = escapeChar c ++ escapeStr cs from rfl, List.append_assoc]
    unfold escapeChar
    by_cases h1 : c = '"'
    · subst h1
      rw [if_pos rfl]
      rw [show (['\\', '"'] : List Char) ++ (escapeStr cs ++ ('"' :: rest)) =
        '\\' :: '"' :: (escapeStr cs ++ ('"' :: rest)) from rfl]
      rw [parseJStr_esc2 '"' '"' _ (Or.inl ⟨rfl, rfl⟩), ih rest]
      rfl
    · rw [if_neg h1]
      by_cases h2 : c = '\\'
      · subst h2
        rw [if_pos rfl]
        rw [show (['\\', '\\'] : List Char) ++ (escapeStr cs ++ ('"' :: rest)) =
          '\\' :: '\\' :: (escapeStr cs ++ ('"' :: rest)) from rfl]
        rw [parseJStr_esc2 '\\' '\\' _ (Or.inr (Or.inl ⟨rfl, rfl⟩)), ih rest]
        rfl
      · rw [if_neg h2]
        by_cases h3 : 32 ≤ c.toNat
        · rw [if_pos h3]
          rw [show ([c] : List Char) ++ (escapeStr cs ++ ('"' :: rest)) =
            c :: (escapeStr cs ++ ('"' :: rest)) from rfl]
          rw [parseJStr_plain c _ h1 h2, ih rest]
          rfl
        · rw [if_neg h3]
          by_cases h8 : c.toNat = 8
          · rw [if_pos h8]
            have hc : c = '\x08' := by
              have hofn := Char.ofNat_toNat c
              rw [h8] at hofn
              exact hofn.symm.trans (by decide)
            rw [show (['\\', 'b'] : List Char) ++ (escapeStr cs ++ ('"' :: rest)) =
              '\\' :: 'b' :: (escapeStr cs ++ ('"' :: rest)) from rfl]
            rw [parseJStr_esc2 'b' '\x08' _
              (Or.inr (Or.inr (Or.inr (Or.inl ⟨rfl, rfl⟩)))), ih rest]
            rw [hc]
            rfl
          · rw [if_neg h8]
            by_cases h9 : c.toNat = 9
            · rw [if_pos h9]
              have hc : c = '\t' := by
                have hofn := Char.ofNat_toNat c
                rw [h9] at hofn
                exact hofn.symm.trans (by decide)
              rw [show (['\\', 't'] : List Char) ++ (escapeStr cs ++ ('"' :: rest)) =
                '\\' :: 't' :: (escapeStr cs ++ ('"' :: rest)) from rfl]
              rw [parseJStr_esc2 't' '\t' _
                (Or.inr (Or.inr (Or.inr (Or.inr (Or.inr (Or.inr (Or.inr ⟨rfl, rfl⟩))))))),
                ih rest]
              rw [hc]
              rfl
            · rw [if_neg h9]
              by_cases h10 : c.toNat = 10
              · rw [if_pos h10]
                have hc : c = '\n' := by
                  have hofn := Char.ofNat_toNat c
                  rw [h10] at hofn
                  exact hofn.symm.trans (by decide)
                rw [show (['\\', 'n'] : List Char) ++ (escapeStr cs ++ ('"' :: rest)) =
                  '\\' :: 'n' :: (escapeStr cs ++ ('"' :: rest)) from rfl]
                rw [parseJStr_esc2 'n' '\n' _
                  (Or.inr (Or.inr (Or.inr (Or.inr (Or.inr (Or.inl ⟨rfl, rfl⟩)))))), ih rest]
                rw [hc]
                rfl
              · rw [if_neg h10]
                by_cases h12 : c.toNat = 12
                · rw [if_pos h12]
                  have hc : c = '\x0c' := by
                    have hofn := Char.ofNat_toNat c
                    rw [h12] at hofn
                    exact hofn.symm.trans (by decide)
                  rw [show (['\\', 'f'] : List Char) ++ (escapeStr cs ++ ('"' :: rest)) =
                    '\\' :: 'f' :: (escapeStr cs ++ ('"' :: rest)) from rfl]
                  rw [parseJStr_esc2 'f' '\x0c' _
                    (Or.inr (Or.inr (Or.inr (Or.inr (Or.inl ⟨rfl, rfl⟩))))), ih rest]
                  rw [hc]
                  rfl
                · rw [if_neg h12]
                  by_cases h13 : c.toNat = 13
                  · rw [if_pos h13]
                    have hc : c = '\x0d' := by
                      have hofn := Char.ofNat_toNat c
                      rw [h13] at hofn
                      exact hofn.symm.trans (by decide)
                    rw [show (['\\', 'r'] : List Char) ++ (escapeStr cs ++ ('"' :: rest)) =
                      '\\' :: 'r' :: (escapeStr cs ++ ('"' :: rest)) from rfl]
                    rw [parseJStr_esc2 'r' '\x0d' _
                      (Or.inr (Or.inr (Or.inr (Or.inr (Or.inr (Or.inr (Or.inl ⟨rfl, rfl⟩))))))),
                      ih rest]
                    rw [hc]
                    rfl
                  · rw [if_neg h13]
                    have h16a : c.toNat / 16 < 16 := by omega
                    have h16b : c.toNat % 16 < 16 := by omega
                    rw [show (['\\', 'u', '0', '0', hexChar (c.toNat / 16),
                        hexChar (c.toNat % 16)] : List Char) ++ (escapeStr cs ++ ('"' :: rest)) =
                      '\\' :: 'u' :: '0' :: '0' :: hexChar (c.toNat / 16) ::
                        hexChar (c.toNat % 16) :: (escapeStr cs ++ ('"' :: rest)) from rfl]
                    rw [parseJStr_escU _ _ h16a h16b, ih rest]
                    have hv : c.toNat / 16 * 16 + c.toNat % 16 = c.toNat := by omega
                    rw [hv, Char.ofNat_toNat]
                    rfl


/-! ### Whitespace and rendering-head lemmas -/

/-- Helper: a digit character is not JSON whitespace. -/
theorem isWs_false_of_digit (c : Char) (h : isDigitChar c = true) : isWs c = false := by
  by_cases h1 : c = ' '
  · subst h1; exact absurd h (by decide)
  · by_cases h2 : c = '\n'
    · subst h2; exact absurd h (by decide)
    · by_cases h3 : c = '\t'
      · subst h3; exact absurd h (by decide)
      · by_cases h4 : c = '\x0d'
        · subst h4; exact absurd h (by decide)
        · unfold isWs
          rw [beq_eq_false_iff_ne.mpr h1, beq_eq_false_iff_ne.mpr h2,
            beq_eq_false_iff_ne.mpr h3, beq_eq_false_iff_ne.mpr h4]
          rfl

/-- Helper: `skipWs` keeps a list whose head is not whitespace. -/
theorem skipWs_cons_false (c : Char) (t : List Char) (h : isWs c = false) :
    skipWs (c :: t) = c :: t := by
  simp [skipWs, h]

/-- Helper: the decimal rendering of a rational starts with a minus sign or
a digit — never whitespace. -/
theorem ratChars_head (q : ℚ) : ∃ c t, ratChars q = c :: t ∧ isWs c = false := by
  unfold ratChars
  dsimp only
  split_ifs with h1 h2 h3
  · exact ⟨'-', _, rfl, by decide⟩
  · obtain ⟨c, t, hct⟩ :=
      List.exists_cons_of_ne_nil (natChars_ne_nil (q * 10 ^ (decExp q).getD 0).num.natAbs)
    have hdig : isDigitChar c = true :=
      natChars_digits _ c (by rw [hct]; exact List.mem_cons_self c t)
    refine ⟨c, t ++ ['.', '0'], ?_, isWs_false_of_digit c hdig⟩
    rw [List.nil_append, hct]
    rfl
  · exact ⟨'-', _, rfl, by decide⟩
  · obtain ⟨c, t, hct⟩ := List.exists_cons_of_ne_nil
      (natChars_ne_nil ((q * 10 ^ (decExp q).getD 0).num.natAbs / 10 ^ (decExp q).getD 0))
    have hdig : isDigitChar c = true :=
      natChars_digits _ c (by rw [hct]; exact List.mem_cons_self c t)
    refine ⟨c, t ++ '.' :: padLeftZeros ((decExp q).getD 0)
      (natChars ((q * 10 ^ (decExp q).getD 0).num.natAbs % 10 ^ (decExp q).getD 0)), ?_,
      isWs_false_of_digit c hdig⟩
    rw [List.nil_append, hct]
    rfl

/-- Helper: `skipWs` keeps a rendered rational. -/
theorem skipWs_ratChars (q : ℚ) (rest : List Char) :
    skipWs (ratChars q ++ rest) = ratChars q ++ rest := by
  obtain ⟨c, t, hct, hws⟩ := ratChars_head q
  rw [hct, List.cons_append]
  exact skipWs_cons_false c (t ++ rest) hws

/-- Helper: the decimal rendering of an integer starts with a minus sign or
a digit — never whitespace. -/
theorem intChars_head (z : ℤ) : ∃ c t, intChars z = c :: t ∧ isWs c = false := by
  unfold intChars
  split_ifs with h1
  · exact ⟨'-', _, rfl, by decide⟩
  · obtain ⟨c, t, hct⟩ := List.exists_cons_of_ne_nil (natChars_ne_nil z.natAbs)
    have hdig : isDigitChar c = true :=
      natChars_digits _ c (by rw [hct]; exact List.mem_cons_self c t)
    exact ⟨c, t, hct, isWs_false_of_digit c hdig⟩

/-- Helper: `skipWs` keeps a rendered integer. -/
theorem skipWs_intChars (z : ℤ) (rest : List Char) :
    skipWs (intChars z ++ rest) = intChars z ++ rest := by
  obtain ⟨c, t, hct, hws⟩ := intChars_head z
  rw [hct, List.cons_append]
  exact skipWs_cons_false c (t ++ rest) hws

/-- Helper: `parseNum` inverts `intChars`. -/
theorem parseNum_intChars (z : ℤ) (rest : List Char) (hr : headNotDigit rest)
    (hdot : rest.head? ≠ some '.') :
    parseNum (intChars z ++ rest) = some ((z : ℚ), rest) := by
  unfold intChars
  split_ifs with hz
  · rw [List.cons_append, parseNum_neg, parseNumCore_int z.natAbs rest hr hdot]
    have hcast : ((z.natAbs : ℕ) : ℚ) = -((z : ℤ) : ℚ) := by
      rw [Int.cast_natAbs, abs_of_neg hz]
      push_cast
      ring
    simp only [Option.map_some']
    rw [hcast]
    ring_nf
  · have hhead : (natChars z.natAbs ++ rest).head? ≠ some '-' := by
      obtain ⟨c, t, hct⟩ := List.exists_cons_of_ne_nil (natChars_ne_nil z.natAbs)
      have hdig : isDigitChar c = true :=
        natChars_digits _ c (by rw [hct]; exact List.mem_cons_self c t)
      rw [hct]
      intro h
      simp only [List.cons_append, List.head?_cons, Option.some.injEq] at h
      exact (isDigitChar_ne c hdig).1 h
    rw [parseNum_not_neg _ hhead, parseNumCore_int z.natAbs rest hr hdot]
    have hcast : ((z.natAbs : ℕ) : ℚ) = ((z : ℤ) : ℚ) := by
      rw [Int.cast_natAbs, abs_of_nonneg (le_of_not_lt hz)]
    rw [hcast]


/-- Helper: a key with only plain characters escapes to itself. -/
theorem escapeStr_keys :
    escapeStr "valor_diario".data = "valor_diario".data ∧
    escapeStr "dias_base".data = "dias_base".data := by
  constructor <;> decide

/-- Helper: `parseFieldKey` consumes the field prelude the dump writes. -/
theorem parseFieldKey_eval (key X : List Char) (hkey : escapeStr key = key) :
    parseFieldKey key
      ('\n' :: ' ' :: ' ' :: ' ' :: ' ' :: '"' :: (key ++ ('"' :: ':' :: ' ' :: X))) =
      some (skipWs X) := by
  unfold parseFieldKey
  rw [show expectChar '"' (skipWs ('\n' :: ' ' :: ' ' :: ' ' :: ' ' :: '"' ::
      (key ++ ('"' :: ':' :: ' ' :: X)))) = some (key ++ ('"' :: ':' :: ' ' :: X)) from rfl]
  simp only [Option.some_bind]
  rw [show key ++ ('"' :: ':' :: ' ' :: X) = escapeStr key ++ ('"' :: (':' :: ' ' :: X)) from
    by rw [hkey]]
  rw [parseJStr_escape key (':' :: ' ' :: X)]
  simp only [Option.some_bind, if_true]
  rw [show expectChar ':' (skipWs (':' :: ' ' :: X)) = some (' ' :: X) from rfl]
  simp only [Option.some_bind]
  rfl

/-- Helper: `parseEmpresa` inverts `dumpEmpresa` for a row whose rate is
exactly decimal. -/
theorem parseEmpresa_dump (e : Empresa) (hv : ∃ j, (e.valor_diario * (10 : ℚ) ^ j).den = 1)
    (rest : List Char) :
    parseEmpresa (dumpEmpresa e ++ rest) = some (e, rest) := by
  obtain ⟨v, d⟩ := e
  have hassoc : dumpEmpresa ⟨v, d⟩ ++ rest =
      "\x7b\n    \"valor_diario\": ".data ++ (ratChars v ++
        (",\n    \"dias_base\": ".data ++ (intChars d ++ ("\n  \x7d".data ++ rest)))) := by
    simp [dumpEmpresa]
  rw [hassoc]
  unfold parseEmpresa
  rw [show expectChar '\x7b' (skipWs ("\x7b\n    \"valor_diario\": ".data ++ (ratChars v ++
        (",\n    \"dias_base\": ".data ++ (intChars d ++ ("\n  \x7d".data ++ rest)))))) =
      some ("\n    \"valor_diario\": ".data ++ (ratChars v ++
        (",\n    \"dias_base\": ".data ++ (intChars d ++ ("\n  \x7d".data ++ rest))))) from rfl]
  simp only [Option.some_bind]
  rw [show "\n    \"valor_diario\": ".data ++ (ratChars v ++
        (",\n    \"dias_base\": ".data ++ (intChars d ++ ("\n  \x7d".data ++ rest)))) =
      '\n' :: ' ' :: ' ' :: ' ' :: ' ' :: '"' :: ("valor_diario".data ++ ('"' :: ':' :: ' ' ::
        (ratChars v ++ (",\n    \"dias_base\": ".data ++
          (intChars d ++ ("\n  \x7d".data ++ rest)))))) from rfl]
  rw [parseFieldKey_eval "valor_diario".data _ escapeStr_keys.1]
  simp only [Option.some_bind]
  have hnd1 : headNotDigit (",\n    \"dias_base\": ".data ++
      (intChars d ++ ("\n  \x7d".data ++ rest))) := by
    show isDigitChar ',' = false
    decide
  rw [skipWs_ratChars v _, parseNum_ratChars v hv _ hnd1]
  simp only [Option.some_bind]
  rw [show expectChar ',' (skipWs (",\n    \"dias_base\": ".data ++
        (intChars d ++ ("\n  \x7d".data ++ rest)))) =
      some ("\n    \"dias_base\": ".data ++ (intChars d ++ ("\n  \x7d".data ++ rest))) from rfl]
  simp only [Option.some_bind]
  rw [show "\n    \"dias_base\": ".data ++ (intChars d ++ ("\n  \x7d".data ++ rest)) =
      '\n' :: ' ' :: ' ' :: ' ' :: ' ' :: '"' :: ("dias_base".data ++ ('"' :: ':' :: ' ' ::
        (intChars d ++ ("\n  \x7d".data ++ rest)))) from rfl]
  rw [parseFieldKey_eval "dias_base".data _ escapeStr_keys.2]
  simp only [Option.some_bind]
  have hnd2 : headNotDigit ("\n  \x7d".data ++ rest) := by
    show isDigitChar '\n' = false
    decide
  have hdot2 : ("\n  \x7d".data ++ rest).head? ≠ some '.' := by
    intro h
    have hh : ("\n  \x7d".data ++ rest).head? = some '\n' := rfl
    rw [hh] at h
    exact absurd h (by decide)
  rw [skipWs_intChars d _, parseNum_intChars d _ hnd2 hdot2]
  simp only [Option.some_bind]
  rw [if_pos (Rat.den_intCast d)]
  rw [show expectChar '\x7d' (skipWs ("\n  \x7d".data ++ rest)) = some rest from rfl]
  simp only [Option.some_bind]
  rw [Rat.num_intCast]


/-- Helper: `parseMembros` inverts `dumpMembros` on a nonempty member list
followed by the closing newline and brace, given enough fuel. -/
theorem parseMembros_dump (m : Empresas) : ∀ fuel, m ≠ [] → m.length ≤ fuel →
    (∀ kv ∈ m, ∃ j, (kv.2.valor_diario * (10 : ℚ) ^ j).den = 1) →
    parseMembros fuel ('\n' :: (dumpMembros m ++ ('\n' :: ['\x7d']))) = some (m, []) := by
  induction m with
  | nil =>
    intro fuel hne _ _
    exact absurd rfl hne
  | cons kv rest ih =>
    intro fuel hne hlen hdec
    cases fuel with
    | zero => simp at hlen
    | succ f =>
      have hkv : ∃ j, (kv.2.valor_diario * (10 : ℚ) ^ j).den = 1 :=
        hdec kv (List.mem_cons_self kv rest)
      match rest with
      | [] =>
        rw [show ('\n' :: (dumpMembros [kv] ++ ('\n' :: ['\x7d']))) =
          '\n' :: ' ' :: ' ' :: (dumpMembro kv ++ ('\n' :: ['\x7d'])) from rfl]
        rw [parseMembros]
        rw [show expectChar '"' (skipWs ('\n' :: ' ' :: ' ' ::
            (dumpMembro kv ++ ('\n' :: ['\x7d'])))) =
          some ((escapeStr kv.1.data ++ '"' :: ':' :: ' ' :: dumpEmpresa kv.2) ++
            ('\n' :: ['\x7d'])) from rfl]
        simp only [Option.some_bind]
        rw [List.append_assoc]
        rw [show (('"' :: ':' :: ' ' :: dumpEmpresa kv.2) ++ ('\n' :: ['\x7d'])) =
          '"' :: (':' :: ' ' :: (dumpEmpresa kv.2 ++ ('\n' :: ['\x7d']))) from rfl]
        rw [parseJStr_escape kv.1.data (':' :: ' ' :: (dumpEmpresa kv.2 ++ ('\n' :: ['\x7d'])))]
        simp only [Option.some_bind]
        rw [show expectChar ':' (skipWs (':' :: ' ' ::
            (dumpEmpresa kv.2 ++ ('\n' :: ['\x7d'])))) =
          some (' ' :: (dumpEmpresa kv.2 ++ ('\n' :: ['\x7d']))) from rfl]
        simp only [Option.some_bind]
        rw [show skipWs (' ' :: (dumpEmpresa kv.2 ++ ('\n' :: ['\x7d']))) =
          dumpEmpresa kv.2 ++ ('\n' :: ['\x7d']) from rfl]
        rw [parseEmpresa_dump kv.2 hkv ('\n' :: ['\x7d'])]
        simp only [Option.some_bind]
        rw [show skipWs ('\n' :: ['\x7d']) = ['\x7d'] from rfl]
        rfl
      | kv2 :: rest2 =>
        rw [show ('\n' :: (dumpMembros (kv :: kv2 :: rest2) ++ ('\n' :: ['\x7d']))) =
          '\n' :: ' ' :: ' ' :: ((dumpMembro kv ++
            (',' :: '\n' :: dumpMembros (kv2 :: rest2))) ++ ('\n' :: ['\x7d'])) from rfl]
        rw [parseMembros]
        rw [show expectChar '"' (skipWs ('\n' :: ' ' :: ' ' :: ((dumpMembro kv ++
            (',' :: '\n' :: dumpMembros (kv2 :: rest2))) ++ ('\n' :: ['\x7d'])))) =
          some (((escapeStr kv.1.data ++ '"' :: ':' :: ' ' :: dumpEmpresa kv.2) ++
            (',' :: '\n' :: dumpMembros (kv2 :: rest2))) ++ ('\n' :: ['\x7d'])) from rfl]
        simp only [Option.some_bind]
        rw [List.append_assoc, List.append_assoc]
        rw [show (('"' :: ':' :: ' ' :: dumpEmpresa kv.2) ++
            ((',' :: '\n' :: dumpMembros (kv2 :: rest2)) ++ ('\n' :: ['\x7d']))) =
          '"' :: (':' :: ' ' :: (dumpEmpresa kv.2 ++
            (',' :: '\n' :: (dumpMembros (kv2 :: rest2) ++ ('\n' :: ['\x7d']))))) from rfl]
        rw [parseJStr_escape kv.1.data (':' :: ' ' :: (dumpEmpresa kv.2 ++
          (',' :: '\n' :: (dumpMembros (kv2 :: rest2) ++ ('\n' :: ['\x7d'])))))]
        simp only [Option.some_bind]
        rw [show expectChar ':' (skipWs (':' :: ' ' :: (dumpEmpresa kv.2 ++
            (',' :: '\n' :: (dumpMembros (kv2 :: rest2) ++ ('\n' :: ['\x7d'])))))) =
          some (' ' :: (dumpEmpresa kv.2 ++
            (',' :: '\n' :: (dumpMembros (kv2 :: rest2) ++ ('\n' :: ['\x7d']))))) from rfl]
        simp only [Option.some_bind]
        rw [show skipWs (' ' :: (dumpEmpresa kv.2 ++
            (',' :: '\n' :: (dumpMembros (kv2 :: rest2) ++ ('\n' :: ['\x7d']))))) =
          dumpEmpresa kv.2 ++
            (',' :: '\n' :: (dumpMembros (kv2 :: rest2) ++ ('\n' :: ['\x7d']))) from rfl]
        rw [parseEmpresa_dump kv.2 hkv
          (',' :: '\n' :: (dumpMembros (kv2 :: rest2) ++ ('\n' :: ['\x7d'])))]
        simp only [Option.some_bind]
        rw [show skipWs (',' :: '\n' :: (dumpMembros (kv2 :: rest2) ++ ('\n' :: ['\x7d']))) =
          ',' :: '\n' :: (dumpMembros (kv2 :: rest2) ++ ('\n' :: ['\x7d'])) from rfl]
        have hlen2 : (kv2 :: rest2).length ≤ f := by
          simp only [List.length_cons] at hlen ⊢
          omega
        have hdec2 : ∀ kv3 ∈ kv2 :: rest2, ∃ j,
            (kv3.2.valor_diario * (10 : ℚ) ^ j).den = 1 :=
          fun kv3 h3 => hdec kv3 (List.mem_cons_of_mem kv h3)
        show (parseMembros f ('\n' :: (dumpMembros (kv2 :: rest2) ++ ('\n' :: ['\x7d'])))).bind
            (fun a => some ((String.mk kv.1.data, kv.2) :: a.1, a.2)) =
          some (kv :: kv2 :: rest2, [])
        rw [ih f (by simp) hlen2 hdec2]
        simp only [Option.some_bind]


/-- Helper: `skipWs` is idempotent. -/
theorem skipWs_idem (l : List Char) : skipWs (skipWs l) = skipWs l := by
  induction l with
  | nil => rfl
  | cons c t ih =>
    by_cases h : isWs c = true
    · simp [skipWs, h, ih]
    · have hf : isWs c = false := by
        cases hc : isWs c
        · rfl
        · exact absurd hc h
      simp [skipWs, hf]

/-- Helper: `parseMembros` skips leading whitespace itself. -/
theorem parseMembros_skip (fuel : ℕ) (s : List Char) :
    parseMembros fuel (skipWs s) = parseMembros fuel s := by
  cases fuel with
  | zero => rfl
  | succ f =>
    rw [parseMembros, parseMembros, skipWs_idem]

/-- Helper: the member list is at most as long as its rendering. -/
theorem dumpMembros_length (m : Empresas) : m.length ≤ (dumpMembros m).length := by
  induction m with
  | nil => simp [dumpMembros]
  | cons kv rest ih =>
    match rest with
    | [] => simp [dumpMembros]
    | kv2 :: rest2 =>
      rw [show dumpMembros (kv :: kv2 :: rest2) =
        ' ' :: ' ' :: (dumpMembro kv ++ ',' :: '\n' :: dumpMembros (kv2 :: rest2)) from rfl]
      simp only [List.length_cons, List.length_append]
      have := ih
      simp only [List.length_cons] at this ⊢
      omega

/-- Helper: `json_load` inverts `dumpEmpresas` when every rate is exactly
decimal. -/
theorem json_load_dump (m : Empresas)
    (hdec : ∀ kv ∈ m, ∃ j, (kv.2.valor_diario * (10 : ℚ) ^ j).den = 1) :
    json_load (dumpEmpresas m) = some m := by
  match m with
  | [] => rfl
  | kv :: rest =>
    have hne : dumpEmpresas (kv :: rest) =
        String.mk ('\x7b' :: '\n' :: (dumpMembros (kv :: rest) ++ ('\n' :: ['\x7d']))) := by
      rfl
    rw [hne]
    unfold json_load
    rw [show expectChar '\x7b' (skipWs (String.mk ('\x7b' :: '\n' ::
        (dumpMembros (kv :: rest) ++ ('\n' :: ['\x7d'])))).data) =
      some ('\n' :: (dumpMembros (kv :: rest) ++ ('\n' :: ['\x7d']))) from rfl]
    dsimp only
    have hz : ∃ z, skipWs ('\n' :: (dumpMembros (kv :: rest) ++ ('\n' :: ['\x7d']))) =
        '"' :: z := by
      match rest with
      | [] =>
        exact ⟨(escapeStr kv.1.data ++ '"' :: ':' :: ' ' :: dumpEmpresa kv.2) ++
          ('\n' :: ['\x7d']), rfl⟩
      | kv2 :: rest2 =>
        exact ⟨((escapeStr kv.1.data ++ '"' :: ':' :: ' ' :: dumpEmpresa kv.2) ++
          (',' :: '\n' :: dumpMembros (kv2 :: rest2))) ++ ('\n' :: ['\x7d']), rfl⟩
    obtain ⟨z, hzeq⟩ := hz
    rw [hzeq]
    have hfuel : (kv :: rest).length ≤
        ('\x7b' :: '\n' :: (dumpMembros (kv :: rest) ++ ('\n' :: ['\x7d']))).length + 1 := by
      have h1 := dumpMembros_length (kv :: rest)
      simp only [List.length_cons, List.length_append] at h1 ⊢
      omega
    have hmem : parseMembros (('\x7b' :: '\n' :: (dumpMembros (kv :: rest) ++
        ('\n' :: ['\x7d']))).length + 1) ('"' :: z) = some (kv :: rest, []) := by
      rw [← hzeq, parseMembros_skip]
      exact parseMembros_dump (kv :: rest) _ (by simp) hfuel hdec
    show (parseMembros (('\x7b' :: '\n' :: (dumpMembros (kv :: rest) ++
        ('\n' :: ['\x7d']))).length + 1) ('"' :: z)).bind
        (fun pm => if (skipWs pm.2).isEmpty = true then some pm.1 else none) =
      some (kv :: rest)
    rw [hmem]
    simp only [Option.some_bind]
    rfl


/-- C8: `carregar_empresas` returns the empty mapping without signalling an
error when the store file is absent; when the file is unreadable, or
readable but unparseable, it signals the error (`st.error`) and still
returns the empty mapping instead of crashing the session. -/
theorem C8_carregar_empresas (s : String) (h : json_load s = none) :
    carregar_empresas Store.ausente = ⟨[], false⟩ ∧
    carregar_empresas Store.ilegivel = ⟨[], true⟩ ∧
    carregar_empresas (Store.conteudo s) = ⟨[], true⟩ := by
  refine ⟨rfl, rfl, ?_⟩
  unfold carregar_empresas
  dsimp only
  rw [h]

/-- Witness for C8 at a concrete corrupt file content. -/
theorem C8_carregar_empresas_witness :
    json_load "corrompido" = none ∧
    carregar_empresas (Store.conteudo "corrompido") = ⟨[], true⟩ :=
  ⟨by decide, (C8_carregar_empresas "corrompido" (by decide)).2.2⟩

/-- C9: saving a mapping and loading it back returns exactly the same
mapping — non-ASCII company names included — whenever every stored daily
rate is a finitely representable decimal (which is the image of the Python
floats the program stores). -/
theorem C9_salvar_carregar_roundtrip (m : Empresas) (store : Store)
    (hdec : ∀ kv ∈ m, ∃ j, (kv.2.valor_diario * (10 : ℚ) ^ j).den = 1) :
    salvar_empresas m true store = (Store.conteudo (dumpEmpresas m), true) ∧
    carregar_empresas (salvar_empresas m true store).1 = ⟨m, false⟩ := by
  constructor
  · rfl
  · show carregar_empresas (Store.conteudo (dumpEmpresas m)) = ⟨m, false⟩
    unfold carregar_empresas
    dsimp only
    rw [json_load_dump m hdec]

/-- Witness for C9 at a mapping with a non-ASCII company name. -/
theorem C9_salvar_carregar_roundtrip_witness :
    carregar_empresas (salvar_empresas [("São Paulo", ⟨(79.24 : ℚ), 21⟩)] true
        Store.ausente).1 =
      ⟨[("São Paulo", ⟨(79.24 : ℚ), 21⟩)], false⟩ :=
  (C9_salvar_carregar_roundtrip [("São Paulo", ⟨(79.24 : ℚ), 21⟩)] Store.ausente
    (by
      intro kv hkv
      simp only [List.mem_singleton] at hkv
      subst hkv
      exact ⟨2, by norm_num⟩)).2


/-! ### HTML note-insertion lemmas -/

/-- Helper: an occurrence in the right part survives prepending. -/
theorem containsSub_left (a b : String) (sub : List Char)
    (h : containsSub b.data sub) : containsSub (a ++ b).data sub := by
  obtain ⟨s, t, hst⟩ := h
  exact ⟨a.data ++ s, t, by rw [String.data_append, hst, List.append_assoc]⟩

/-- Helper: an occurrence in the left part survives appending. -/
theorem containsSub_right (a b : String) (sub : List Char)
    (h : containsSub a.data sub) : containsSub (a ++ b).data sub := by
  obtain ⟨s, t, hst⟩ := h
  refine ⟨s, t ++ b.data, ?_⟩
  rw [String.data_append, hst]
  simp [List.append_assoc]

/-- Helper: the rendered document contains the raw note text, verbatim and
unescaped, immediately after the Observação label. -/
theorem observacao_verbatim (hoje : String) (c : Calc) (h : c.observacao ≠ "") :
    containsSub (gerar_html_relatorio hoje [c]).data
      (("<strong>Observação:</strong> " ++ c.observacao).data) := by
  unfold gerar_html_relatorio
  apply containsSub_right
  apply containsSub_left
  rw [show String.join ([c].map (render_calc hoje)) = "" ++ render_calc hoje c from rfl]
  apply containsSub_left
  unfold render_calc
  apply containsSub_right
  apply containsSub_right
  apply containsSub_right
  apply containsSub_right
  apply containsSub_left
  unfold blocoObservacao
  rw [if_pos h]
  refine ⟨"\n                <div class=\"observacao\">\n                    ".data,
    "\n                </div>\n            ".data, ?_⟩
  simp only [String.data_append, List.append_assoc]


/-- C3 counterexample: rendering a record whose note contains angle
brackets produces a document in which the raw, unescaped markup — here a
whole `<script>` element — appears in text position right after the
Observação label: the angle bracket is not escaped and does become a new
tag, contradicting the claim. -/
theorem C3_contraexemplo_observacao_sem_escape :
    containsSub
      (gerar_html_relatorio "31/12/2024"
        [⟨"Fulano", "Empresa X", (79.24 : ℚ), 21,
          [⟨"Novembro/2024", 21, (1663.04 : ℚ), none, none⟩],
          [⟨"Atestado", 5, none, none⟩],
          ⟨21, (1663.04 : ℚ), 5, 16, 5, (396.2 : ℚ), (1266.84 : ℚ)⟩,
          "<script>alert(1)</script>", some "01/12/2024"⟩]).data
      ("<strong>Observação:</strong> <script>alert(1)</script>").data :=
  observacao_verbatim "31/12/2024"
    ⟨"Fulano", "Empresa X", (79.24 : ℚ), 21,
      [⟨"Novembro/2024", 21, (1663.04 : ℚ), none, none⟩],
      [⟨"Atestado", 5, none, none⟩],
      ⟨21, (1663.04 : ℚ), 5, 16, 5, (396.2 : ℚ), (1266.84 : ℚ)⟩,
      "<script>alert(1)</script>", some "01/12/2024"⟩ (by decide)

/-- C3 (amended): `gerar_html_relatorio` inserts the note with no escaping
at all: for every record with a nonempty note, the raw note text —
markup-significant characters included — appears verbatim in the rendered
document right after the Observação label, so an angle bracket in the note
does alter the document structure. -/
theorem C3_observacao_inserida_literal (hoje : String) (c : Calc)
    (h : c.observacao ≠ "") :
    containsSub (gerar_html_relatorio hoje [c]).data
      (("<strong>Observação:</strong> " ++ c.observacao).data) :=
  observacao_verbatim hoje c h

/-- Witness for the amended C3 at a concrete record. -/
theorem C3_observacao_inserida_literal_witness :
    containsSub
      (gerar_html_relatorio "30/11/2024"
        [⟨"Beltrano", "Empresa Y", (50.0 : ℚ), 21, [], [],
          ⟨0, 0, 0, 0, 0, 0, 0⟩, "<b>nota</b>", none⟩]).data
      (("<strong>Observação:</strong> " ++ ("<b>nota</b>" : String)).data) :=
  C3_observacao_inserida_literal "30/11/2024"
    ⟨"Beltrano", "Empresa Y", (50.0 : ℚ), 21, [], [],
      ⟨0, 0, 0, 0, 0, 0, 0⟩, "<b>nota</b>", none⟩ (by decide)

end Teste
